import Mathlib

/-!
Shallow embedding of the `compose-parser` graph-layout engine
(`ParseToReactFlow` and its helpers) for verifying the natural-language
specification against the code.

Conventions of the embedding:
* Go `int` is modelled as `Int`; Go integer division (truncation toward
  zero) is `Int.tdiv`.
* Go `float64` positions are produced by `float64(x)` conversions from
  `int` values only, so positions are modelled exactly as `Int`.
* Go maps (`map[string]V`) are modelled as association lists
  `List (String × V)` in insertion order, with first-match lookup; the
  Go-map invariant that keys are unique becomes an explicit `Nodup`
  hypothesis where a theorem needs it.
* `map[string]interface{}` property / style bags become
  `List (String × PropValue)` in the order the source literal writes them.
* `sort.Slice` with a strict `less` is modelled by a deterministic
  insertion sort using `le a b := !(less b a)`; any result it produces is
  one of the outcomes the unstable Go sort may produce.
* The only impurity of the Go code is `time.Now()` stamped into the
  returned graph's `CreatedAt`; the claims explicitly ignore the creation
  timestamp, so the embedded graph value omits that field.
* `ParseToReactFlow` always returns a `nil` error in the source, so the
  embedding returns the graph directly.
-/

/-- Values stored in the free-form `map[string]interface{}` bags of the
source (`Properties`, `Style`, `LabelStyle`): strings, ints, bools,
string slices, and non-integral numeric literals (modelled exactly as
rationals, e.g. `0.4`, `1.5`). -/
inductive PropValue where
  | s (v : String)
  | i (v : Int)
  | b (v : Bool)
  | sl (v : List String)
  | q (v : Rat)
deriving DecidableEq, Repr

/-- `VolumeMount` (fields read by the layout engine: `Type`, `Source`;
`Target` kept for completeness). -/
structure VolumeMount where
  type : String
  source : String
  target : String
deriving DecidableEq, Repr

/-- `PortMapping` (only its count is read by the layout engine). -/
structure PortMapping where
  target : Nat
  published : Nat
  protocol : String
  mode : String
deriving DecidableEq, Repr

/-- `ComposeServiceConfig`, projected to the fields the layout engine
reads: `Image`, `Order`, `DependsOn`, `Ports`, `Networks`, `Volumes`. -/
structure ComposeServiceConfig where
  image : String
  order : Int
  dependsOn : List String
  ports : List PortMapping
  networks : List String
  volumes : List VolumeMount
deriving DecidableEq, Repr

/-- `NetworkConfig`, projected to the fields the layout engine reads. -/
structure NetworkConfig where
  driver : String
  external : Bool
  attachable : Bool
  internal : Bool
deriving DecidableEq, Repr

/-- `VolumeConfig`, projected to the fields the layout engine reads. -/
structure VolumeConfig where
  driver : String
  external : Bool
  order : Int
deriving DecidableEq, Repr

/-- `ComposeProjectConfig`, projected to the fields the layout engine
reads.  The Go maps `Services`, `Networks`, `Volumes` are association
lists here (see the header comment). -/
structure ComposeProjectConfig where
  version : String
  name : String
  services : List (String × ComposeServiceConfig)
  serviceOrder : List String
  volumeOrder : List String
  networks : List (String × NetworkConfig)
  volumes : List (String × VolumeConfig)
deriving DecidableEq, Repr

/-- `ReactFlowPosition`; the source stores `float64(x)` of `int` values,
so the coordinates are exact integers. -/
structure ReactFlowPosition where
  x : Int
  y : Int
deriving DecidableEq, Repr

/-- `ReactFlowNodeData` (fields the layout engine writes). -/
structure ReactFlowNodeData where
  label : String
  type : String
  service : Option ComposeServiceConfig
  network : Option NetworkConfig
  volume : Option VolumeConfig
  status : String
  properties : List (String × PropValue)
deriving DecidableEq, Repr

/-- `ReactFlowNode` (fields the layout engine writes; `Width`/`Height`
are never set by the layout code, so they are the Go zero value `0`). -/
structure ReactFlowNode where
  id : String
  type : String
  position : ReactFlowPosition
  data : ReactFlowNodeData
  width : Int
  height : Int
  style : List (String × PropValue)
deriving DecidableEq, Repr

/-- `ReactFlowEdge` (fields the layout engine writes). -/
structure ReactFlowEdge where
  id : String
  source : String
  sourceHandle : String
  target : String
  targetHandle : String
  type : String
  animated : Bool
  style : List (String × PropValue)
  label : String
  labelStyle : List (String × PropValue)
deriving DecidableEq, Repr

/-- `ReactFlowViewport` (`Zoom` is the constant `0.8`). -/
structure ReactFlowViewport where
  x : Int
  y : Int
  zoom : Rat
deriving DecidableEq, Repr

/-- `ReactFlowGraph`, without the `CreatedAt` timestamp (`time.Now()`,
the sole impurity; the claims ignore the creation timestamp). -/
structure ReactFlowGraph where
  nodes : List ReactFlowNode
  edges : List ReactFlowEdge
  project : String
  layout : String
  direction : String
  viewport : ReactFlowViewport
deriving DecidableEq, Repr

/-- `GraphLayoutOptions`, all fields. -/
structure GraphLayoutOptions where
  direction : String
  nodeWidth : Int
  nodeHeight : Int
  nodeGapX : Int
  nodeGapY : Int
  padding : Int
  columnGap : Int
  columnTopGap : Int
  dockerComposeStart : Int
  volumeXOffset : Int
  volumeYOffset : Int
  lastY : Int
deriving DecidableEq, Repr

/-- `GraphDimensions`, all fields. -/
structure GraphDimensions where
  serviceCount : Int
  volumeCount : Int
  networkCount : Int
  dockerComposeX : Int
  dockerComposeY : Int
  serviceHeight : Int
  networkHeight : Int
  serviceBaseY : Int
  networkStartY : Int
  serviceStartX : Int
  serviceStartY : Int
  volumeYOffset : Int
  unusedVolumeStartY : Int
deriving DecidableEq, Repr

/-- `networkWithName`. -/
structure networkWithName where
  name : String
  network : NetworkConfig
deriving DecidableEq, Repr

/-- `serviceWithOrder`. -/
structure serviceWithOrder where
  name : String
  order : Int
  service : ComposeServiceConfig
deriving DecidableEq, Repr

/-- `volumeWithOrder`. -/
structure volumeWithOrder where
  name : String
  order : Int
  volume : VolumeConfig
deriving DecidableEq, Repr

/-- `positionedVolume`. -/
structure positionedVolume where
  name : String
  volume : VolumeConfig
  targetY : Int
  serviceX : Int
  usedBy : List String
deriving DecidableEq, Repr

/-- Model of a Go map read `m[k]` over an association list: first match
(keys of a Go map are unique, so at most one entry matches). -/
def lookupAssoc {α : Type} (m : List (String × α)) (k : String) : Option α :=
  match m with
  | [] => none
  | (k', v) :: rest => if k' = k then some v else lookupAssoc rest k

/-- One insertion step of the `sort.Slice` model. -/
def insertLe {α : Type} (le : α → α → Bool) (x : α) : List α → List α
  | [] => [x]
  | y :: ys => if le x y then x :: y :: ys else y :: insertLe le x ys

/-- Insertion sort by a boolean `le`. -/
def insertionSortLe {α : Type} (le : α → α → Bool) : List α → List α
  | [] => []
  | x :: xs => insertLe le x (insertionSortLe le xs)

/-- Model of Go `sort.Slice` with strict comparator `less`: a
deterministic sort whose result is ordered by `le a b := !(less b a)`;
every output it produces is admissible for the (unstable) Go sort. -/
def sortSlice {α : Type} (less : α → α → Bool) (l : List α) : List α :=
  insertionSortLe (fun a b => !(less b a)) l

/-- `initDefaultOptions`: the documented defaults are applied only when
the whole options value is absent (`nil`); a supplied value is returned
unchanged. -/
def initDefaultOptions : Option GraphLayoutOptions → GraphLayoutOptions
  | none =>
    { direction := "LR"
      nodeWidth := 240
      nodeHeight := 120
      nodeGapX := 100
      nodeGapY := 50
      padding := 50
      columnGap := 440
      columnTopGap := 120
      dockerComposeStart := -350
      volumeXOffset := 300
      volumeYOffset := 180
      lastY := -1000 }
  | some options => options

/-- `calculateGraphDimensions`. -/
def calculateGraphDimensions (project : ComposeProjectConfig)
    (options : GraphLayoutOptions) : GraphDimensions :=
  let serviceCount : Int := project.services.length
  let volumeCount : Int := project.volumes.length
  let networkCount : Int := project.networks.length
  let dockerComposeX : Int := 0
  let dockerComposeY : Int := Int.tdiv (serviceCount * options.nodeHeight) 2 - 10
  let serviceHeight0 := serviceCount * options.nodeHeight
  let serviceHeight := if serviceHeight0 < options.nodeWidth then options.nodeWidth else serviceHeight0
  let networkHeight0 := networkCount * options.nodeHeight
  let networkHeight := if networkHeight0 < options.nodeHeight then options.nodeHeight else networkHeight0
  let serviceBaseY := options.padding
  let networkStartY :=
    if serviceHeight ≥ networkHeight then
      serviceBaseY + Int.tdiv (serviceHeight - networkHeight) 2
    else
      serviceBaseY - Int.tdiv (networkHeight - serviceHeight) 2
  let serviceStartX := dockerComposeX + options.columnGap
  let serviceStartY := options.padding
  let volumeYOffset := options.volumeYOffset
  let unusedVolumeStartY := dockerComposeY + volumeYOffset
  { serviceCount := serviceCount
    volumeCount := volumeCount
    networkCount := networkCount
    dockerComposeX := dockerComposeX
    dockerComposeY := dockerComposeY
    serviceHeight := serviceHeight
    networkHeight := networkHeight
    serviceBaseY := serviceBaseY
    networkStartY := networkStartY
    serviceStartX := serviceStartX
    serviceStartY := serviceStartY
    volumeYOffset := volumeYOffset
    unusedVolumeStartY := unusedVolumeStartY }

/-- `createDockerComposeNode`. -/
def createDockerComposeNode (project : ComposeProjectConfig)
    (options : GraphLayoutOptions) (dimensions : GraphDimensions) : ReactFlowNode :=
  { id := "docker-compose"
    type := "compose"
    position := { x := options.dockerComposeStart, y := dimensions.dockerComposeY }
    data :=
      { label := project.name
        type := "compose"
        service := none
        network := none
        volume := none
        status := ""
        properties :=
          [("services", .i dimensions.serviceCount),
           ("networks", .i dimensions.networkCount),
           ("volumes", .i dimensions.volumeCount),
           ("version", .s project.version)] }
    width := 0
    height := 0
    style := [] }

/-- `getSortedNetworks`: sort by name, ascending. -/
def getSortedNetworks (networks : List (String × NetworkConfig)) : List networkWithName :=
  sortSlice (fun a b => decide (a.name < b.name))
    (networks.map (fun kv => { name := kv.1, network := kv.2 }))

/-- The body of the `createNetworkNodes` loop (`networkIndex` is the
running index; the second component accumulates the `networkNodes`
name → node-id map in insertion order). -/
def createNetworkNodesGo (dimensions : GraphDimensions) (networkIndex : Int) :
    List networkWithName → List ReactFlowNode × List (String × String)
  | [] => ([], [])
  | item :: rest =>
    let x := dimensions.dockerComposeX + 20
    let y := dimensions.networkStartY + networkIndex * 120
    let nodeID := "network-" ++ item.name
    let networkNode : ReactFlowNode :=
      { id := nodeID
        type := "network"
        position := { x := x, y := y }
        data :=
          { label := item.name
            type := "network"
            service := none
            network := some item.network
            volume := none
            status := ""
            properties :=
              [("driver", .s item.network.driver),
               ("internal", .b item.network.internal),
               ("external", .b item.network.external),
               ("attachable", .b item.network.attachable)] }
        width := 0
        height := 0
        style := [] }
    let r := createNetworkNodesGo dimensions (networkIndex + 1) rest
    (networkNode :: r.1, (item.name, nodeID) :: r.2)

/-- `createNetworkNodes`. -/
def createNetworkNodes (project : ComposeProjectConfig)
    (_options : GraphLayoutOptions) (dimensions : GraphDimensions) :
    List ReactFlowNode × List (String × String) :=
  createNetworkNodesGo dimensions 0 (getSortedNetworks project.networks)

/-- The loop of the services / volumes comparator that scans the declared
order list, updating `idxI` / `idxJ` on every match of the respective
name and stopping as soon as both are set (`k` is the running index,
`-1` the "not found" sentinel). -/
def findOrderIdxs (nameI nameJ : String) (k idxI idxJ : Int) :
    List String → Int × Int
  | [] => (idxI, idxJ)
  | nm :: rest =>
    let idxI' := if nm = nameI then k else idxI
    let idxJ' := if nm = nameJ then k else idxJ
    if idxI' ≠ -1 ∧ idxJ' ≠ -1 then (idxI', idxJ')
    else findOrderIdxs nameI nameJ (k + 1) idxI' idxJ' rest

/-- The comparator used (textually duplicated in the source) by both
`getSortedServices` and `getSortedVolumes`: explicit nonzero order
values compare ascending; a zero/zero tie falls back to positions in the
declared order list via `findOrderIdxs`. -/
def orderLess (declaredOrder : List String) (nameI : String) (orderI : Int)
    (nameJ : String) (orderJ : Int) : Bool :=
  if orderI = 0 ∧ orderJ = 0 then
    let p := findOrderIdxs nameI nameJ 0 (-1) (-1) declaredOrder
    if p.1 ≠ -1 ∧ p.2 ≠ -1 then decide (p.1 < p.2)
    else if p.1 = -1 then false
    else if p.2 = -1 then true
    else decide (orderI < orderJ)
  else decide (orderI < orderJ)

/-- `getSortedServices`. -/
def getSortedServices (services : List (String × ComposeServiceConfig))
    (serviceOrder : List String) : List serviceWithOrder :=
  sortSlice (fun a b => orderLess serviceOrder a.name a.order b.name b.order)
    (services.map (fun kv => { name := kv.1, order := kv.2.order, service := kv.2 }))

/-- `getSortedVolumes`. -/
def getSortedVolumes (volumes : List (String × VolumeConfig))
    (volumeOrder : List String) : List volumeWithOrder :=
  sortSlice (fun a b => orderLess volumeOrder a.name a.order b.name b.order)
    (volumes.map (fun kv => { name := kv.1, order := kv.2.order, volume := kv.2 }))

/-- The body of the `createServiceNodes` loop (`serviceIndex` is the
running index; the second component accumulates the `serviceMap`
name → node-id map in insertion order). -/
def createServiceNodesGo (options : GraphLayoutOptions)
    (dimensions : GraphDimensions) (serviceIndex : Int) :
    List serviceWithOrder → List ReactFlowNode × List (String × String)
  | [] => ([], [])
  | item :: rest =>
    let x := dimensions.serviceStartX
    let y := dimensions.serviceStartY + serviceIndex * options.columnTopGap
    let nodeID := "services-" ++ item.name
    let nodeColor := "#3b82f6"
    let serviceNode : ReactFlowNode :=
      { id := nodeID
        type := "services"
        position := { x := x, y := y }
        data :=
          { label := item.name
            type := "services"
            service := some item.service
            network := none
            volume := none
            status := "saved"
            properties :=
              [("image", .s item.service.image),
               ("ports", .i (item.service.ports.length : Int)),
               ("volumes", .i (item.service.volumes.length : Int)),
               ("depends_on", .i (item.service.dependsOn.length : Int)),
               ("networks", .i (item.service.networks.length : Int)),
               ("color", .s nodeColor),
               ("order", .i item.service.order)] }
        width := 0
        height := 0
        style := [] }
    let r := createServiceNodesGo options dimensions (serviceIndex + 1) rest
    (serviceNode :: r.1, (item.name, nodeID) :: r.2)

/-- `createServiceNodes`. -/
def createServiceNodes (project : ComposeProjectConfig)
    (options : GraphLayoutOptions) (dimensions : GraphDimensions) :
    List ReactFlowNode × List (String × String) :=
  createServiceNodesGo options dimensions 0
    (getSortedServices project.services project.serviceOrder)

/-- The inner loop of `createNetworkToServiceEdges` over one service's
declared network memberships: every membership resolvable in
`networkNodeMap` emits one labeled edge and bumps the edge counter. -/
def netEdgesForService (networkNodeMap : List (String × String))
    (serviceName nodeID : String) (edgeCounter : Nat) :
    List String → Nat × List ReactFlowEdge
  | [] => (edgeCounter, [])
  | networkName :: rest =>
    match lookupAssoc networkNodeMap networkName with
    | some networkNodeID =>
      let edge : ReactFlowEdge :=
        { id := "edge-network-services-" ++ networkName ++ "-" ++ serviceName
          source := networkNodeID
          sourceHandle := ""
          target := nodeID
          targetHandle := ""
          type := "smoothstep"
          animated := false
          style := [("strokeWidth", .i 0), ("stroke", .s "transparent")]
          label := networkName
          labelStyle :=
            [("fill", .s "#3b82f6"), ("opacity", .q 0.4), ("textAlign", .s "center")] }
      let r := netEdgesForService networkNodeMap serviceName nodeID (edgeCounter + 1) rest
      (r.1, edge :: r.2)
    | none => netEdgesForService networkNodeMap serviceName nodeID edgeCounter rest

/-- The outer loop of `createNetworkToServiceEdges`: per service, the
resolvable-membership edges; if there were none (`hasNetworkConnections`
stayed false), one fallback root→service edge whose id uses the bumped
edge counter. -/
def netSvcEdgesGo (networkNodeMap : List (String × String)) (edgeCounter : Nat) :
    List serviceWithOrder → List ReactFlowEdge
  | [] => []
  | item :: rest =>
    let nodeID := "services-" ++ item.name
    let r := netEdgesForService networkNodeMap item.name nodeID edgeCounter item.service.networks
    if r.2.isEmpty then
      let c2 := r.1 + 1
      let fallbackEdge : ReactFlowEdge :=
        { id := "edge-compose-services-" ++ toString c2
          source := "docker-compose"
          sourceHandle := ""
          target := nodeID
          targetHandle := ""
          type := "smoothstep"
          animated := false
          style := [("strokeWidth", .q 1.5), ("strokeDasharray", .s "5,5")]
          label := ""
          labelStyle := [] }
      fallbackEdge :: netSvcEdgesGo networkNodeMap c2 rest
    else
      r.2 ++ netSvcEdgesGo networkNodeMap r.1 rest

/-- `createNetworkToServiceEdges` (the `serviceNodes` and `dimensions`
parameters are unused by the source body, as here). -/
def createNetworkToServiceEdges (project : ComposeProjectConfig)
    (_serviceNodes : List ReactFlowNode) (networkNodeMap : List (String × String))
    (_dimensions : GraphDimensions) : List ReactFlowEdge :=
  netSvcEdgesGo networkNodeMap 0 (getSortedServices project.services project.serviceOrder)

/-- Model of `volumeUsage[volumeName] = append(volumeUsage[volumeName], serviceName)`
on the insertion-ordered association list. -/
def addUsage (usage : List (String × List String)) (volumeName serviceName : String) :
    List (String × List String) :=
  match usage with
  | [] => [(volumeName, [serviceName])]
  | (k, v) :: rest =>
    if k = volumeName then (k, v ++ [serviceName]) :: rest
    else (k, v) :: addUsage rest volumeName serviceName

/-- Inner loop of `collectVolumeUsage` over one service's mounts: every
mount of kind "volume" with nonempty source records the service as a
user of that source name. -/
def usageOfMounts (usage : List (String × List String)) (serviceName : String) :
    List VolumeMount → List (String × List String)
  | [] => usage
  | m :: rest =>
    if m.type = "volume" ∧ m.source ≠ "" then
      usageOfMounts (addUsage usage m.source serviceName) serviceName rest
    else
      usageOfMounts usage serviceName rest

/-- Outer loop of `collectVolumeUsage` over the sorted services. -/
def collectUsageGo (usage : List (String × List String)) :
    List serviceWithOrder → List (String × List String)
  | [] => usage
  | item :: rest => collectUsageGo (usageOfMounts usage item.name item.service.volumes) rest

/-- `collectVolumeUsage`: volume-name → user-service-names map, plus the
service-label → position map read off the service nodes. -/
def collectVolumeUsage (project : ComposeProjectConfig)
    (serviceNodes : List ReactFlowNode) :
    List (String × List String) × List (String × ReactFlowPosition) :=
  let servicePositions :=
    (serviceNodes.filter (fun n => n.type == "services")).map
      (fun n => (n.data.label, n.position))
  (collectUsageGo [] (getSortedServices project.services project.serviceOrder),
   servicePositions)

/-- The position-summing loop of `createVolumeNodes` over one volume's
user services (missing positions are skipped, as in the source). -/
def sumPositionsGo (servicePositions : List (String × ReactFlowPosition))
    (sumX sumY count : Int) : List String → Int × Int × Int
  | [] => (sumX, sumY, count)
  | nm :: rest =>
    match lookupAssoc servicePositions nm with
    | some pos => sumPositionsGo servicePositions (sumX + pos.x) (sumY + pos.y) (count + 1) rest
    | none => sumPositionsGo servicePositions sumX sumY count rest

/-- The mean-position maps `volumeServiceX` / `volumeServiceY` of
`createVolumeNodes`, as one name → (meanX, meanY) list (truncating
integer division, Go `/`). -/
def volumeServiceMeans (volumeUsage : List (String × List String))
    (servicePositions : List (String × ReactFlowPosition)) :
    List (String × Int × Int) :=
  volumeUsage.filterMap (fun kv =>
    if kv.2.length > 0 then
      let s := sumPositionsGo servicePositions 0 0 0 kv.2
      if s.2.2 > 0 then some (kv.1, Int.tdiv s.1 s.2.2, Int.tdiv s.2.1 s.2.2)
      else none
    else none)

/-- The partition loop of `createVolumeNodes`: sorted volumes split into
used and unused `positionedVolume`s, reading the mean maps with the Go
zero-value default and `usedBy` with the Go `nil`-slice default. -/
def partitionVolumes (means : List (String × Int × Int))
    (volumeUsage : List (String × List String)) :
    List volumeWithOrder → List positionedVolume × List positionedVolume
  | [] => ([], [])
  | item :: rest =>
    let (used, unused) := partitionVolumes means volumeUsage rest
    if (volumeUsage.map Prod.fst).contains item.name then
      ({ name := item.name
         volume := item.volume
         targetY := ((lookupAssoc means item.name).map (fun m => m.2)).getD 0
         serviceX := ((lookupAssoc means item.name).map (fun m => m.1)).getD 0
         usedBy := (lookupAssoc volumeUsage item.name).getD [] } :: used, unused)
    else
      (used,
       { name := item.name
         volume := item.volume
         targetY := 0
         serviceX := 0
         usedBy := (lookupAssoc volumeUsage item.name).getD [] } :: unused)

/-- The used-volume placement loop of `createVolumeNodes`: the first
volume is clamped below by `padding`, every later one by the previously
placed Y plus `columnTopGap`; X is the mean service X plus
`volumeXOffset`. -/
def placeUsedVolumesGo (options : GraphLayoutOptions) (isFirst : Bool) (lastY : Int) :
    List positionedVolume → List ReactFlowNode
  | [] => []
  | vol :: rest =>
    let nodeID := "volume-" ++ vol.name
    let desiredY := vol.targetY
    let y : Int :=
      if isFirst then
        if desiredY < options.padding then options.padding else desiredY
      else
        let minY := lastY + options.columnTopGap
        if desiredY < minY then minY else desiredY
    let x := vol.serviceX + options.volumeXOffset
    let volumeNode : ReactFlowNode :=
      { id := nodeID
        type := "volume"
        position := { x := x, y := y }
        data :=
          { label := vol.name
            type := "volume"
            service := none
            network := none
            volume := some vol.volume
            status := ""
            properties :=
              [("driver", .s vol.volume.driver),
               ("external", .b vol.volume.external),
               ("order", .i vol.volume.order),
               ("used_by", .sl vol.usedBy),
               ("used", .b true)] }
        width := 0
        height := 0
        style := [] }
    volumeNode :: placeUsedVolumesGo options false y rest

/-- The unused-volume placement loop of `createVolumeNodes`.  The source
also constructs a root→unused-volume edge here, binds it to `_` with the
comment "in the current implementation we do not add it", and the main
method never appends it; the discarded value has no effect, so the
embedding emits only the node. -/
def placeUnusedVolumesGo (options : GraphLayoutOptions) (unusedVolumeStartY i : Int) :
    List positionedVolume → List ReactFlowNode
  | [] => []
  | vol :: rest =>
    let nodeID := "volume-" ++ vol.name
    let x := options.dockerComposeStart
    let y := unusedVolumeStartY + i * options.nodeGapX
    let volumeNode : ReactFlowNode :=
      { id := nodeID
        type := "volume"
        position := { x := x, y := y }
        data :=
          { label := vol.name
            type := "volume"
            service := none
            network := none
            volume := some vol.volume
            status := "unused"
            properties :=
              [("driver", .s vol.volume.driver),
               ("external", .b vol.volume.external),
               ("order", .i vol.volume.order),
               ("used_by", .sl vol.usedBy),
               ("used", .b false),
               ("status", .s "unused")] }
        width := 0
        height := 0
        style := [("opacity", .q 0.5)] }
    volumeNode :: placeUnusedVolumesGo options unusedVolumeStartY (i + 1) rest

/-- `createVolumeNodes`: used volumes (sorted ascending by mean Y of
their users, then placed with the monotonic lower bound) followed by
unused volumes stacked under the root column. -/
def createVolumeNodes (project : ComposeProjectConfig) (options : GraphLayoutOptions)
    (dimensions : GraphDimensions) (volumeUsage : List (String × List String))
    (servicePositions : List (String × ReactFlowPosition)) : List ReactFlowNode :=
  let means := volumeServiceMeans volumeUsage servicePositions
  let volumesList := getSortedVolumes project.volumes project.volumeOrder
  let (usedVolumes, unusedVolumes) := partitionVolumes means volumeUsage volumesList
  let sortedUsed := sortSlice (fun a b => decide (a.targetY < b.targetY)) usedVolumes
  placeUsedVolumesGo options true options.lastY sortedUsed
    ++ placeUnusedVolumesGo options dimensions.unusedVolumeStartY 0 unusedVolumes

/-- The inner loop of `createDependsOnEdges` over one service's
dependency names: every name resolvable in `serviceMap` emits one
animated edge whose id is the bumped counter. -/
def dependsEdgesForService (serviceMap : List (String × String)) (sourceID : String)
    (edgeCounter : Nat) : List String → Nat × List ReactFlowEdge
  | [] => (edgeCounter, [])
  | dep :: rest =>
    match lookupAssoc serviceMap dep with
    | some targetID =>
      let c := edgeCounter + 1
      let edge : ReactFlowEdge :=
        { id := "edge-depends-" ++ toString c
          source := sourceID
          sourceHandle := sourceID ++ "-source-2"
          target := targetID
          targetHandle := targetID ++ "-target-2"
          type := "smoothstep"
          animated := true
          style := []
          label := ""
          labelStyle := [] }
      let r := dependsEdgesForService serviceMap sourceID c rest
      (r.1, edge :: r.2)
    | none => dependsEdgesForService serviceMap sourceID edgeCounter rest

/-- The outer loop of `createDependsOnEdges` over the sorted services,
threading the edge counter. -/
def dependsEdgesGo (serviceMap : List (String × String)) (edgeCounter : Nat) :
    List serviceWithOrder → List ReactFlowEdge
  | [] => []
  | item :: rest =>
    let r :=
      dependsEdgesForService serviceMap ("services-" ++ item.name) edgeCounter
        item.service.dependsOn
    r.2 ++ dependsEdgesGo serviceMap r.1 rest

/-- `createDependsOnEdges`. -/
def createDependsOnEdges (project : ComposeProjectConfig)
    (serviceMap : List (String × String)) : List ReactFlowEdge :=
  dependsEdgesGo serviceMap 0 (getSortedServices project.services project.serviceOrder)

/-- The inner loop of `createServiceToVolumeEdges` over one service's
mounts.  The source's existence check first scans `serviceNodes` for a
node with the volume id (never true: service nodes carry `services-`
ids) and then falls back to scanning the keys of `volumeUsage`. -/
def svcVolEdgesForService (serviceNodes : List ReactFlowNode)
    (volumeUsage : List (String × List String)) (sourceID : String)
    (edgeCounter : Nat) : List VolumeMount → Nat × List ReactFlowEdge
  | [] => (edgeCounter, [])
  | m :: rest =>
    if m.type = "volume" ∧ m.source ≠ "" then
      let targetID := "volume-" ++ m.source
      let volumeExists :=
        serviceNodes.any (fun n => n.id == targetID)
          || (volumeUsage.map Prod.fst).any (fun volName => volName == m.source)
      if volumeExists then
        let c := edgeCounter + 1
        let edge : ReactFlowEdge :=
          { id := "edge-services-volume-" ++ toString c
            source := sourceID
            sourceHandle := ""
            target := targetID
            targetHandle := ""
            type := "smoothstep"
            animated := true
            style := []
            label := ""
            labelStyle := [] }
        let r := svcVolEdgesForService serviceNodes volumeUsage sourceID c rest
        (r.1, edge :: r.2)
      else
        svcVolEdgesForService serviceNodes volumeUsage sourceID edgeCounter rest
    else
      svcVolEdgesForService serviceNodes volumeUsage sourceID edgeCounter rest

/-- The outer loop of `createServiceToVolumeEdges`, threading the edge
counter over the sorted services. -/
def svcVolEdgesGo (serviceNodes : List ReactFlowNode)
    (volumeUsage : List (String × List String)) (edgeCounter : Nat) :
    List serviceWithOrder → List ReactFlowEdge
  | [] => []
  | item :: rest =>
    let r :=
      svcVolEdgesForService serviceNodes volumeUsage ("services-" ++ item.name)
        edgeCounter item.service.volumes
    r.2 ++ svcVolEdgesGo serviceNodes volumeUsage r.1 rest

/-- `createServiceToVolumeEdges`. -/
def createServiceToVolumeEdges (project : ComposeProjectConfig)
    (serviceNodes : List ReactFlowNode)
    (volumeUsage : List (String × List String)) : List ReactFlowEdge :=
  svcVolEdgesGo serviceNodes volumeUsage 0
    (getSortedServices project.services project.serviceOrder)

/-- `calculateViewport`: bounding-box fold (the max components are
computed by the source but unused in the returned value, as here). -/
def calculateViewport (nodes : List ReactFlowNode)
    (options : GraphLayoutOptions) : ReactFlowViewport :=
  match nodes with
  | [] => { x := 0, y := 0, zoom := 0.8 }
  | n0 :: rest =>
    let init : Int × Int × Int × Int :=
      (n0.position.x, n0.position.y, n0.position.x + n0.width, n0.position.y + n0.height)
    let folded :=
      rest.foldl (fun acc node =>
        let minX := if node.position.x < acc.1 then node.position.x else acc.1
        let minY := if node.position.y < acc.2.1 then node.position.y else acc.2.1
        let maxX := if node.position.x + node.width > acc.2.2.1 then node.position.x + node.width else acc.2.2.1
        let maxY := if node.position.y + node.height > acc.2.2.2 then node.position.y + node.height else acc.2.2.2
        (minX, minY, maxX, maxY)) init
    { x := folded.1 - options.padding, y := folded.2.1 - options.padding, zoom := 0.8 }

/-- `buildFinalGraph` (without the `time.Now()` timestamp). -/
def buildFinalGraph (project : ComposeProjectConfig) (nodes : List ReactFlowNode)
    (edges : List ReactFlowEdge) (viewport : ReactFlowViewport) : ReactFlowGraph :=
  { nodes := nodes
    edges := edges
    project := project.name
    layout := "custom"
    direction := "LR"
    viewport := viewport }

/-- `ParseToReactFlow`: the full layout pipeline. -/
def ParseToReactFlow (project : ComposeProjectConfig)
    (options0 : Option GraphLayoutOptions) : ReactFlowGraph :=
  let options := initDefaultOptions options0
  let dimensions := calculateGraphDimensions project options
  let dockerComposeNode := createDockerComposeNode project options dimensions
  let networkPart := createNetworkNodes project options dimensions
  let servicePart := createServiceNodes project options dimensions
  let networkEdges := createNetworkToServiceEdges project servicePart.1 networkPart.2 dimensions
  let usagePart := collectVolumeUsage project servicePart.1
  let volumeNodes := createVolumeNodes project options dimensions usagePart.1 usagePart.2
  let dependsEdges := createDependsOnEdges project servicePart.2
  let serviceToVolumeEdges := createServiceToVolumeEdges project servicePart.1 usagePart.1
  let allNodes := [dockerComposeNode] ++ networkPart.1 ++ servicePart.1 ++ volumeNodes
  let viewport := calculateViewport allNodes options
  let allEdges := networkEdges ++ dependsEdges ++ serviceToVolumeEdges
  buildFinalGraph project allNodes allEdges viewport

/-! ## Concrete example inputs used by scenario theorems and witnesses -/

/-- A minimal service descriptor (all lists empty, order 0). -/
def exService : ComposeServiceConfig :=
  { image := "img", order := 0, dependsOn := [], ports := [], networks := [], volumes := [] }

/-- A minimal network descriptor. -/
def exNetwork : NetworkConfig :=
  { driver := "", external := false, attachable := false, internal := false }

/-- A minimal volume descriptor (order 0). -/
def exVolume : VolumeConfig :=
  { driver := "", external := false, order := 0 }

/-- Scenario C of the spec: one network "front", one service "s" that is a
member of "front". -/
def projScenarioC : ComposeProjectConfig :=
  { version := "3", name := "p"
    services := [("s", { exService with networks := ["front"] })]
    serviceOrder := ["s"], volumeOrder := []
    networks := [("front", exNetwork)], volumes := [] }

/-- A project whose only service mounts a volume (kind "volume", source
"data") that is not declared under `volumes`. -/
def projDangling : ComposeProjectConfig :=
  { version := "3", name := "p"
    services := [("web", { exService with volumes := [{ type := "volume", source := "data", target := "/d" }] })]
    serviceOrder := ["web"], volumeOrder := []
    networks := [], volumes := [] }

/-- A project with one declared volume "v" that no mount references, and
no services. -/
def projUnusedVol : ComposeProjectConfig :=
  { version := "3", name := "p"
    services := [], serviceOrder := [], volumeOrder := ["v"]
    networks := [], volumes := [("v", exVolume)] }

/-- Services "b", "c" where "b" depends on "c". -/
def projDep1 : ComposeProjectConfig :=
  { version := "3", name := "p"
    services := [("b", { exService with dependsOn := ["c"] }), ("c", exService)]
    serviceOrder := ["b", "c"], volumeOrder := []
    networks := [], volumes := [] }

/-- Services "a", "b", "c" where both "a" and "b" depend on "c". -/
def projDep2 : ComposeProjectConfig :=
  { version := "3", name := "p"
    services := [("a", { exService with dependsOn := ["c"] }),
                 ("b", { exService with dependsOn := ["c"] }), ("c", exService)]
    serviceOrder := ["a", "b", "c"], volumeOrder := []
    networks := [], volumes := [] }

/-- A project with a single service "a" and nothing else. -/
def projOneService : ComposeProjectConfig :=
  { version := "3", name := "p"
    services := [("a", exService)], serviceOrder := ["a"], volumeOrder := []
    networks := [], volumes := [] }

/-- Two services each mounting its own declared volume. -/
def projTwoVols : ComposeProjectConfig :=
  { version := "3", name := "p"
    services := [("a", { exService with volumes := [{ type := "volume", source := "v1", target := "/x" }] }),
                 ("b", { exService with volumes := [{ type := "volume", source := "v2", target := "/y" }] })]
    serviceOrder := ["a", "b"], volumeOrder := ["v1", "v2"]
    networks := [], volumes := [("v1", exVolume), ("v2", exVolume)] }

/-- A supplied (non-nil) options value whose fields are all the Go zero
value, i.e. a caller's `&GraphLayoutOptions{}`. -/
def zeroOptions : GraphLayoutOptions :=
  { direction := "", nodeWidth := 0, nodeHeight := 0, nodeGapX := 0, nodeGapY := 0
    padding := 0, columnGap := 0, columnTopGap := 0, dockerComposeStart := 0
    volumeXOffset := 0, volumeYOffset := 0, lastY := 0 }

/-! ## Definitions written from the spec's words (refinement targets) -/

/-- Modelled from the spec (§4.4), continuation case: each subsequent
volume's Y is `max(meanY, previousPlacedY + columnTopGap)`. -/
def specUsedYsGo (options : GraphLayoutOptions) (prevY : Int) : List Int → List Int
  | [] => []
  | meanY :: rest =>
    let y := max meanY (prevY + options.columnTopGap)
    y :: specUsedYsGo options y rest

/-- Modelled from the spec (§4.4): the first used volume's Y is
`max(meanY, padding)`; each subsequent one follows `specUsedYsGo`. -/
def specUsedYs (options : GraphLayoutOptions) : List Int → List Int
  | [] => []
  | meanY :: rest =>
    let y := max meanY options.padding
    y :: specUsedYsGo options y rest

/-- Modelled from the spec (§4.1 tie-break): compare the positions of the
first occurrence of each name in the declared order list; a name absent
from the list sorts after all named entries; if only one side is found,
the found one sorts first. -/
def specTieLess (declaredOrder : List String) (nameI nameJ : String) : Bool :=
  match declaredOrder.findIdx? (fun nm => nm == nameI),
        declaredOrder.findIdx? (fun nm => nm == nameJ) with
  | some fi, some fj => decide (fi < fj)
  | some _, none => true
  | none, some _ => false
  | none, none => false

/-- The decision the source comparator takes on the index pair returned
by `findOrderIdxs` (its final fallthrough compares the two zero order
values, i.e. yields `false`). -/
def idxDecision (p : Int × Int) : Bool :=
  if p.1 ≠ -1 ∧ p.2 ≠ -1 then decide (p.1 < p.2)
  else if p.1 = -1 then false
  else if p.2 = -1 then true
  else false

/-- The id sequence an incrementing edge counter produces: `n` ids
`pre ++ toString (c+1)`, `pre ++ toString (c+2)`, …  in order. -/
def counterIds (pre : String) (c : Nat) : Nat → List String
  | 0 => []
  | n + 1 => (pre ++ toString (c + 1)) :: counterIds pre (c + 1) n


/-- The used volumes of the layout, in placement order: partitioned off
the sorted volume list and sorted ascending by `targetY`, the truncating
integer mean Y of the using services' positions. -/
def c5UsedVolumes (p : ComposeProjectConfig) (o : Option GraphLayoutOptions) :
    List positionedVolume :=
  let options := initDefaultOptions o
  let dimensions := calculateGraphDimensions p options
  let servicePart := createServiceNodes p options dimensions
  let usagePart := collectVolumeUsage p servicePart.1
  let means := volumeServiceMeans usagePart.1 usagePart.2
  sortSlice (fun a b => decide (a.targetY < b.targetY))
    (partitionVolumes means usagePart.1 (getSortedVolumes p.volumes p.volumeOrder)).1

/-- The used-volume nodes of the layout, as placed by
`placeUsedVolumesGo` on `c5UsedVolumes`. -/
def c5PlacedNodes (p : ComposeProjectConfig) (o : Option GraphLayoutOptions) :
    List ReactFlowNode :=
  placeUsedVolumesGo (initDefaultOptions o) true (initDefaultOptions o).lastY
    (c5UsedVolumes p o)

/-- The C5 property: the volume nodes of the layout are the placed used
volumes followed by the unused ones; used volumes are processed in
ascending order of mean Y; placed Y positions equal the spec recurrence
(first `max(meanY, padding)`, then `max(meanY, prevY + columnTopGap)`);
X = meanX + volumeXOffset; and the placed Y positions strictly
increase, so no two used-volume nodes share a Y. -/
def c5Property (p : ComposeProjectConfig) (o : Option GraphLayoutOptions) : Prop :=
  (createVolumeNodes p (initDefaultOptions o)
      (calculateGraphDimensions p (initDefaultOptions o))
      (collectVolumeUsage p
        (createServiceNodes p (initDefaultOptions o)
          (calculateGraphDimensions p (initDefaultOptions o))).1).1
      (collectVolumeUsage p
        (createServiceNodes p (initDefaultOptions o)
          (calculateGraphDimensions p (initDefaultOptions o))).1).2 =
    c5PlacedNodes p o ++
      placeUnusedVolumesGo (initDefaultOptions o)
        (calculateGraphDimensions p (initDefaultOptions o)).unusedVolumeStartY 0
        (partitionVolumes
          (volumeServiceMeans
            (collectVolumeUsage p
              (createServiceNodes p (initDefaultOptions o)
                (calculateGraphDimensions p (initDefaultOptions o))).1).1
            (collectVolumeUsage p
              (createServiceNodes p (initDefaultOptions o)
                (calculateGraphDimensions p (initDefaultOptions o))).1).2)
          (collectVolumeUsage p
            (createServiceNodes p (initDefaultOptions o)
              (calculateGraphDimensions p (initDefaultOptions o))).1).1
          (getSortedVolumes p.volumes p.volumeOrder)).2) ∧
  List.Pairwise (fun a b => a.targetY ≤ b.targetY) (c5UsedVolumes p o) ∧
  (c5PlacedNodes p o).map (fun n => n.position.y) =
    specUsedYs (initDefaultOptions o) ((c5UsedVolumes p o).map (fun v => v.targetY)) ∧
  (c5PlacedNodes p o).map (fun n => n.position.x) =
    (c5UsedVolumes p o).map (fun v => v.serviceX + (initDefaultOptions o).volumeXOffset) ∧
  List.Pairwise (fun a b => a.position.y < b.position.y) (c5PlacedNodes p o)

/-- The C6 property for one listed service: with zero resolvable network
memberships it receives exactly one root→service fallback edge and zero
network→service edges; with at least one resolvable membership it
receives zero fallback edges (and one network edge per resolvable
membership). -/
def fallbackProperty (p : ComposeProjectConfig) (o : Option GraphLayoutOptions)
    (item : serviceWithOrder) : Prop :=
  let options := initDefaultOptions o
  let dimensions := calculateGraphDimensions p options
  let m := (createNetworkNodes p options dimensions).2
  let edges :=
    createNetworkToServiceEdges p (createServiceNodes p options dimensions).1 m dimensions
  let tgt := "services-" ++ item.name
  let fallback :=
    edges.filter (fun e => e.source == "docker-compose" && e.target == tgt)
  let netEdges :=
    edges.filter (fun e => !(e.source == "docker-compose") && e.target == tgt)
  let resolvable :=
    item.service.networks.filter (fun n => (lookupAssoc m n).isSome)
  netEdges.length = resolvable.length ∧
    (resolvable.length = 0 → fallback.length = 1) ∧
    (0 < resolvable.length → fallback.length = 0)


/-- A comparator deterministically orders a list when, on the list's
members, the derived `le a b := !(less b a)` is transitive and total and
ties occur only between equal elements: then any two runs of the
(unstable) `sort.Slice` over any enumeration order of the members
produce the same sorted list. -/
def SortDeterministic {α : Type} (less : α → α → Bool) (l : List α) : Prop :=
  (∀ a ∈ l, ∀ b ∈ l, ∀ c ∈ l,
      (!(less b a)) = true → (!(less c b)) = true → (!(less c a)) = true) ∧
  (∀ a ∈ l, ∀ b ∈ l, (!(less b a)) = true ∨ (!(less a b)) = true) ∧
  (∀ a ∈ l, ∀ b ∈ l, (!(less b a)) = true → (!(less a b)) = true → a = b)

/-- The ordering resolver is tie-free on a project: each of the three
entity comparators deterministically orders its entity list. -/
def orderResolverTieFree (p : ComposeProjectConfig) : Prop :=
  SortDeterministic
    (fun a b : serviceWithOrder => orderLess p.serviceOrder a.name a.order b.name b.order)
    (p.services.map (fun kv => { name := kv.1, order := kv.2.order, service := kv.2 })) ∧
  SortDeterministic (fun a b : networkWithName => decide (a.name < b.name))
    (p.networks.map (fun kv => { name := kv.1, network := kv.2 })) ∧
  SortDeterministic
    (fun a b : volumeWithOrder => orderLess p.volumeOrder a.name a.order b.name b.order)
    (p.volumes.map (fun kv => { name := kv.1, order := kv.2.order, volume := kv.2 }))

/-- The counter id scheme of the three counter-named edge families:
dependency edges carry exactly the consecutive ids "edge-depends-1", …;
service→volume edges carry exactly "edge-services-volume-1", …; and
every root fallback edge of the network/fallback pass carries
"edge-compose-services-k" where k−1 is its position in that pass — all
derived from the traversal counter, none from the edge's endpoints. -/
def c2IdScheme (p : ComposeProjectConfig) (o : Option GraphLayoutOptions) : Prop :=
  let options := initDefaultOptions o
  let dimensions := calculateGraphDimensions p options
  let netSvcEdges :=
    createNetworkToServiceEdges p (createServiceNodes p options dimensions).1
      (createNetworkNodes p options dimensions).2 dimensions
  (∀ sm : List (String × String),
    (createDependsOnEdges p sm).map (fun e => e.id) =
      counterIds "edge-depends-" 0 (createDependsOnEdges p sm).length) ∧
  (∀ (serviceNodes : List ReactFlowNode) (usage : List (String × List String)),
    (createServiceToVolumeEdges p serviceNodes usage).map (fun e => e.id) =
      counterIds "edge-services-volume-" 0
        (createServiceToVolumeEdges p serviceNodes usage).length) ∧
  (∀ (i : Nat) (e : ReactFlowEdge), netSvcEdges[i]? = some e →
    e.source = "docker-compose" →
    e.id = "edge-compose-services-" ++ toString (i + 1))

/-! ## Helper lemmas: association lists, sorting, node ids -/

/-- A successful map lookup comes from an entry of the list. -/
theorem lookupAssoc_mem {α : Type} {m : List (String × α)} {k : String} {v : α}
    (h : lookupAssoc m k = some v) : (k, v) ∈ m := by
  induction m with
  | nil => simp [lookupAssoc] at h
  | cons kv rest ih =>
    obtain ⟨k', v'⟩ := kv
    simp only [lookupAssoc] at h
    split at h
    case isTrue heq =>
      injection h with h2
      subst heq
      subst h2
      exact List.mem_cons_self _ _
    case isFalse hne =>
      exact List.mem_cons_of_mem _ (ih h)

/-- Appending to a fixed prefix is injective. -/
theorem str_append_cancel {p a b : String} (h : p ++ a = p ++ b) : a = b := by
  have h2 := congrArg String.data h
  simp only [String.data_append] at h2
  exact String.ext (List.append_cancel_left h2)

/-- A network node id is never the root id. -/
theorem network_id_ne_compose (n : String) : "network-" ++ n ≠ "docker-compose" := by
  intro h
  have h2 := congrArg String.data h
  simp [String.data_append] at h2

/-- A service node id is never a network node id. -/
theorem services_id_ne_network (a b : String) : "services-" ++ a ≠ "network-" ++ b := by
  intro h
  have h2 := congrArg String.data h
  simp [String.data_append] at h2

/-- A volume node id is never a network node id. -/
theorem volume_id_ne_network (a b : String) : "volume-" ++ a ≠ "network-" ++ b := by
  intro h
  have h2 := congrArg String.data h
  simp [String.data_append] at h2

/-- Inserting an element is a permutation of consing it. -/
theorem insertLe_perm {α : Type} (le : α → α → Bool) (x : α) (l : List α) :
    List.Perm (insertLe le x l) (x :: l) := by
  induction l with
  | nil => exact List.Perm.refl _
  | cons y ys ih =>
    rw [insertLe]
    split
    · exact List.Perm.refl _
    · exact (List.Perm.cons y ih).trans (List.Perm.swap x y ys)

/-- Insertion sort permutes its input. -/
theorem insertionSortLe_perm {α : Type} (le : α → α → Bool) (l : List α) :
    List.Perm (insertionSortLe le l) l := by
  induction l with
  | nil => exact List.Perm.refl _
  | cons x xs ih => exact (insertLe_perm le x _).trans (ih.cons x)

/-- The `sort.Slice` model permutes its input. -/
theorem sortSlice_perm {α : Type} (less : α → α → Bool) (l : List α) :
    List.Perm (sortSlice less l) l :=
  insertionSortLe_perm _ l

/-- Inserting into a `le`-sorted list keeps it sorted, for total
transitive `le`. -/
theorem insertLe_pairwise {α : Type} {le : α → α → Bool}
    (htot : ∀ a b, le a b = true ∨ le b a = true)
    (htrans : ∀ a b c, le a b = true → le b c = true → le a c = true)
    (x : α) {l : List α} (h : List.Pairwise (fun a b => le a b = true) l) :
    List.Pairwise (fun a b => le a b = true) (insertLe le x l) := by
  induction l with
  | nil => simp [insertLe]
  | cons y ys ih =>
    rw [insertLe]
    rcases List.pairwise_cons.mp h with ⟨hy, hys⟩
    by_cases hxy : le x y = true
    · rw [if_pos hxy]
      refine List.pairwise_cons.mpr ⟨?_, h⟩
      intro b hb
      rcases List.mem_cons.mp hb with hb | hb
      · exact hb ▸ hxy
      · exact htrans x y b hxy (hy b hb)
    · rw [if_neg hxy]
      have hyx : le y x = true := (htot x y).resolve_left hxy
      refine List.pairwise_cons.mpr ⟨?_, ih hys⟩
      intro b hb
      have : b ∈ x :: ys := (insertLe_perm le x ys).mem_iff.mp hb
      rcases List.mem_cons.mp this with hb' | hb'
      · exact hb' ▸ hyx
      · exact hy b hb'

/-- Insertion sort sorts, for total transitive `le`. -/
theorem insertionSortLe_pairwise {α : Type} {le : α → α → Bool}
    (htot : ∀ a b, le a b = true ∨ le b a = true)
    (htrans : ∀ a b c, le a b = true → le b c = true → le a c = true)
    (l : List α) :
    List.Pairwise (fun a b => le a b = true) (insertionSortLe le l) := by
  induction l with
  | nil => exact List.Pairwise.nil
  | cons x xs ih => exact insertLe_pairwise htot htrans x ih

/-- The used-volume sort of `createVolumeNodes` yields a list ascending
in `targetY` (the truncating mean Y). -/
theorem sortSlice_targetY_sorted (l : List positionedVolume) :
    List.Pairwise (fun a b => a.targetY ≤ b.targetY)
      (sortSlice (fun a b => decide (a.targetY < b.targetY)) l) := by
  have h := @insertionSortLe_pairwise positionedVolume
    (fun a b => !(decide (b.targetY < a.targetY)))
    (fun a b => by
      by_cases hab : a.targetY ≤ b.targetY
      · left; simp; omega
      · right; simp; omega)
    (fun a b c hab hbc => by
      simp at hab hbc ⊢; omega)
    l
  exact h.imp (fun hab => by simp at hab; omega)

/-! ## The direction option is never read (C10 support) -/

/-- Service node creation ignores the direction option. -/
theorem createServiceNodesGo_dir (d d' : String)
    (w h gx gy pad cg ctg dcs vxo vyo ly : Int) (dims : GraphDimensions)
    (i : Int) (l : List serviceWithOrder) :
    createServiceNodesGo ⟨d, w, h, gx, gy, pad, cg, ctg, dcs, vxo, vyo, ly⟩ dims i l =
      createServiceNodesGo ⟨d', w, h, gx, gy, pad, cg, ctg, dcs, vxo, vyo, ly⟩ dims i l := by
  induction l generalizing i with
  | nil => rfl
  | cons item rest ih => simp only [createServiceNodesGo, ih]

/-- Used-volume placement ignores the direction option. -/
theorem placeUsedVolumesGo_dir (d d' : String)
    (w h gx gy pad cg ctg dcs vxo vyo ly : Int) (isFirst : Bool) (lastY : Int)
    (l : List positionedVolume) :
    placeUsedVolumesGo ⟨d, w, h, gx, gy, pad, cg, ctg, dcs, vxo, vyo, ly⟩ isFirst lastY l =
      placeUsedVolumesGo ⟨d', w, h, gx, gy, pad, cg, ctg, dcs, vxo, vyo, ly⟩ isFirst lastY l := by
  induction l generalizing isFirst lastY with
  | nil => rfl
  | cons vol rest ih => simp only [placeUsedVolumesGo, ih]

/-- Unused-volume placement ignores the direction option. -/
theorem placeUnusedVolumesGo_dir (d d' : String)
    (w h gx gy pad cg ctg dcs vxo vyo ly : Int) (startY i : Int)
    (l : List positionedVolume) :
    placeUnusedVolumesGo ⟨d, w, h, gx, gy, pad, cg, ctg, dcs, vxo, vyo, ly⟩ startY i l =
      placeUnusedVolumesGo ⟨d', w, h, gx, gy, pad, cg, ctg, dcs, vxo, vyo, ly⟩ startY i l := by
  induction l generalizing i with
  | nil => rfl
  | cons vol rest ih => simp only [placeUnusedVolumesGo, ih]

/-- The whole layout ignores the direction option. -/
theorem parseToReactFlow_dir (p : ComposeProjectConfig)
    (o : GraphLayoutOptions) (d : String) :
    ParseToReactFlow p (some { o with direction := d }) =
      ParseToReactFlow p (some o) := by
  obtain ⟨dir, w, h, gx, gy, pad, cg, ctg, dcs, vxo, vyo, ly⟩ := o
  simp only [ParseToReactFlow, initDefaultOptions, calculateGraphDimensions,
    createDockerComposeNode, createNetworkNodes, createServiceNodes,
    createNetworkToServiceEdges, collectVolumeUsage, createVolumeNodes,
    createDependsOnEdges, createServiceToVolumeEdges, calculateViewport,
    buildFinalGraph, List.singleton_append,
    createServiceNodesGo_dir d dir, placeUsedVolumesGo_dir d dir,
    placeUnusedVolumesGo_dir d dir]

/-! ## C10 -/

/-- C10: for every project snapshot and options value the returned
graph's layout tag is "custom" and its direction tag is "LR", and the
direction option is never read: replacing the direction field of any
supplied options value leaves the whole output unchanged. -/
theorem c10_layout_direction_tags :
    ∀ (p : ComposeProjectConfig) (o : Option GraphLayoutOptions),
      (ParseToReactFlow p o).layout = "custom" ∧
      (ParseToReactFlow p o).direction = "LR" ∧
      ∀ (opts : GraphLayoutOptions) (d : String),
        ParseToReactFlow p (some { opts with direction := d }) =
          ParseToReactFlow p (some opts) :=
  fun p _ => ⟨rfl, rfl, fun opts d => parseToReactFlow_dir p opts d⟩

/-! ## C7 -/

/-- C7 counterexample: a supplied options value with every field unset
(the Go zero value, a caller's `&GraphLayoutOptions{}`) keeps width 0;
the claimed per-field defaulting to 240 does not happen. -/
theorem c7_counterexample_zero_options :
    (initDefaultOptions (some zeroOptions)).nodeWidth = 0 ∧
      ¬ (initDefaultOptions (some zeroOptions)).nodeWidth = 240 := by
  constructor
  · rfl
  · decide

/-- C7 (amended): defaults are applied only when the whole options value
is absent — a nil options value yields exactly the documented default
record — while any supplied options value is used verbatim (hence also
never mutated during the call). -/
theorem c7_defaults_whole_value_only :
    initDefaultOptions none =
      { direction := "LR", nodeWidth := 240, nodeHeight := 120, nodeGapX := 100,
        nodeGapY := 50, padding := 50, columnGap := 440, columnTopGap := 120,
        dockerComposeStart := -350, volumeXOffset := 300, volumeYOffset := 180,
        lastY := -1000 } ∧
      ∀ o : GraphLayoutOptions, initDefaultOptions (some o) = o :=
  ⟨rfl, fun _ => rfl⟩

/-! ## C1 -/

/-- C1 (code bug witnessed): on a project whose service mounts the
undeclared volume "data" (kind "volume", nonempty source), the output
contains a service→volume edge targeting "volume-data" although no node
with that id exists — the unresolved reference is not dropped, violating
the endpoint invariant. -/
theorem c1_dangling_volume_edge :
    (((ParseToReactFlow projDangling none).edges.filter
        (fun e => e.target == "volume-data")).map
        (fun e => (e.source, e.target)) = [("services-web", "volume-data")]) ∧
      ((ParseToReactFlow projDangling none).nodes.filter
        (fun n => n.id == "volume-data")).length = 0 := by
  constructor
  · rfl
  · rfl

/-! ## C4 (counterexample) -/

/-- C4 counterexample: a project with one declared, unreferenced volume
"v" yields an output whose edge list is empty — in particular it does
not contain the claimed root→unused-volume edge labeled "unused" — while
the unused volume node itself is present. -/
theorem c4_counterexample_no_unused_edge :
    (ParseToReactFlow projUnusedVol none).edges.length = 0 ∧
      ((ParseToReactFlow projUnusedVol none).nodes.map
        (fun n => (n.id, n.data.status)) =
        [("docker-compose", ""), ("volume-v", "unused")]) := by
  constructor
  · rfl
  · rfl

/-! ## C3 (counterexample) -/

/-- C3 counterexample: for Scenario C (network "front", service "s" in
"front") the output has 3 nodes but its only edge is network→service;
there is no root→network edge targeting "network-front". -/
theorem c3_counterexample_no_root_network_edge :
    (ParseToReactFlow projScenarioC none).nodes.length = 3 ∧
      ((ParseToReactFlow projScenarioC none).edges.map
        (fun e => (e.source, e.target)) = [("network-front", "services-s")]) ∧
      ((ParseToReactFlow projScenarioC none).edges.filter
        (fun e => e.target == "network-front")).length = 0 := by
  refine ⟨rfl, rfl, rfl⟩

/-! ## C2 (counterexample) -/

/-- C2 counterexample: the dependency edge with the same stable pair
(source "services-b", target "services-c", depends-on kind) receives id
"edge-depends-1" in one project and "edge-depends-2" in another, so edge
identifiers are not derived from the (source, target, kind) pair — they
come from an incrementing counter over the traversal. -/
theorem c2_counterexample_counter_ids :
    (((ParseToReactFlow projDep1 none).edges.filter
        (fun e => e.source == "services-b" && e.target == "services-c")).map
        (fun e => e.id) = ["edge-depends-1"]) ∧
      (((ParseToReactFlow projDep2 none).edges.filter
        (fun e => e.source == "services-b" && e.target == "services-c")).map
        (fun e => e.id) = ["edge-depends-2"]) := by
  constructor
  · rfl
  · rfl

/-! ## C9 (counterexample) -/

/-- C9 counterexample: with default options and one service, the root
node is drawn at X = −350 (rootColumnStartX) while the service node sits
at X = 440 = 0 + columnGap, which differs from rootNodeX + columnGap =
90; the claimed formula over the root node's position fails. -/
theorem c9_counterexample_root_offset :
    ((ParseToReactFlow projOneService none).nodes.map
      (fun n => (n.id, n.position.x)) =
      [("docker-compose", -350), ("services-a", 440)]) ∧
      ¬ ((440 : Int) = -350 + 440) := by
  constructor
  · rfl
  · decide

/-! ## Shape lemmas for generated maps and nodes -/

/-- Every entry of the network name → node-id map pairs a name with its
"network-" id. -/
theorem mem_networkNodeMap {dims : GraphDimensions} {i : Int}
    {l : List networkWithName} {k v : String}
    (h : (k, v) ∈ (createNetworkNodesGo dims i l).2) : v = "network-" ++ k := by
  induction l generalizing i with
  | nil => simp [createNetworkNodesGo] at h
  | cons item rest ih =>
    simp only [createNetworkNodesGo, List.mem_cons] at h
    rcases h with h | h
    · injection h with hk hv
      subst hk
      exact hv
    · exact ih h

/-- Every entry of the service name → node-id map pairs a name with its
"services-" id. -/
theorem mem_serviceMap {o : GraphLayoutOptions} {dims : GraphDimensions} {i : Int}
    {l : List serviceWithOrder} {k v : String}
    (h : (k, v) ∈ (createServiceNodesGo o dims i l).2) : v = "services-" ++ k := by
  induction l generalizing i with
  | nil => simp [createServiceNodesGo] at h
  | cons item rest ih =>
    simp only [createServiceNodesGo, List.mem_cons] at h
    rcases h with h | h
    · injection h with hk hv
      subst hk
      exact hv
    · exact ih h

/-- Every generated network node has kind "network" and sits at
X = root column origin + 20. -/
theorem mem_createNetworkNodesGo {dims : GraphDimensions} {i : Int}
    {l : List networkWithName} {n : ReactFlowNode}
    (h : n ∈ (createNetworkNodesGo dims i l).1) :
    n.type = "network" ∧ n.position.x = dims.dockerComposeX + 20 := by
  induction l generalizing i with
  | nil => simp [createNetworkNodesGo] at h
  | cons item rest ih =>
    simp only [createNetworkNodesGo, List.mem_cons] at h
    rcases h with h | h
    · subst h
      exact ⟨rfl, rfl⟩
    · exact ih h

/-- Every generated service node has kind "services" and sits at
X = serviceStartX. -/
theorem mem_createServiceNodesGo {o : GraphLayoutOptions} {dims : GraphDimensions}
    {i : Int} {l : List serviceWithOrder} {n : ReactFlowNode}
    (h : n ∈ (createServiceNodesGo o dims i l).1) :
    n.type = "services" ∧ n.position.x = dims.serviceStartX := by
  induction l generalizing i with
  | nil => simp [createServiceNodesGo] at h
  | cons item rest ih =>
    simp only [createServiceNodesGo, List.mem_cons] at h
    rcases h with h | h
    · subst h
      exact ⟨rfl, rfl⟩
    · exact ih h

/-- Every placed used-volume node has kind "volume". -/
theorem mem_placeUsedVolumesGo {o : GraphLayoutOptions} {isFirst : Bool}
    {lastY : Int} {l : List positionedVolume} {n : ReactFlowNode}
    (h : n ∈ placeUsedVolumesGo o isFirst lastY l) : n.type = "volume" := by
  induction l generalizing isFirst lastY with
  | nil => simp [placeUsedVolumesGo] at h
  | cons vol rest ih =>
    simp only [placeUsedVolumesGo, List.mem_cons] at h
    rcases h with h | h
    · subst h
      rfl
    · exact ih h

/-- Every placed unused-volume node has kind "volume". -/
theorem mem_placeUnusedVolumesGo {o : GraphLayoutOptions} {startY i : Int}
    {l : List positionedVolume} {n : ReactFlowNode}
    (h : n ∈ placeUnusedVolumesGo o startY i l) : n.type = "volume" := by
  induction l generalizing i with
  | nil => simp [placeUnusedVolumesGo] at h
  | cons vol rest ih =>
    simp only [placeUnusedVolumesGo, List.mem_cons] at h
    rcases h with h | h
    · subst h
      rfl
    · exact ih h

/-! ## Shape lemmas for generated edges -/

/-- Each edge of one service's membership loop targets that service's
node id and draws its source from the network node map. -/
theorem mem_netEdgesForService {m : List (String × String)} {nm nodeID : String}
    {c : Nat} {nets : List String} {e : ReactFlowEdge}
    (h : e ∈ (netEdgesForService m nm nodeID c nets).2) :
    e.target = nodeID ∧ ∃ n', lookupAssoc m n' = some e.source := by
  induction nets generalizing c with
  | nil => simp [netEdgesForService] at h
  | cons net rest ih =>
    simp only [netEdgesForService] at h
    cases hl : lookupAssoc m net with
    | some nid =>
      rw [hl] at h
      simp only [List.mem_cons] at h
      rcases h with h | h
      · subst h
        exact ⟨rfl, net, hl⟩
      · exact ih h
    | none =>
      rw [hl] at h
      exact ih h

/-- The membership loop emits one edge per resolvable membership. -/
theorem length_netEdgesForService (m : List (String × String)) (nm nodeID : String)
    (nets : List String) : ∀ c : Nat,
    (netEdgesForService m nm nodeID c nets).2.length =
      (nets.filter (fun n => (lookupAssoc m n).isSome)).length := by
  induction nets with
  | nil => intro c; simp [netEdgesForService]
  | cons net rest ih =>
    intro c
    simp only [netEdgesForService]
    cases hl : lookupAssoc m net with
    | some nid =>
      simp [List.filter_cons, hl, ih]
    | none =>
      simp [List.filter_cons, hl, ih c]

/-- Every edge of the network/fallback pass targets some listed
service's node id, and is either the root fallback (unlabeled, source
"docker-compose") or sourced from the network node map. -/
theorem mem_netSvcEdgesGo {m : List (String × String)} {c : Nat}
    {l : List serviceWithOrder} {e : ReactFlowEdge}
    (h : e ∈ netSvcEdgesGo m c l) :
    (∃ item ∈ l, e.target = "services-" ++ item.name) ∧
      ((e.source = "docker-compose" ∧ e.label = "") ∨
        ∃ n', lookupAssoc m n' = some e.source) := by
  induction l generalizing c with
  | nil => simp [netSvcEdgesGo] at h
  | cons item rest ih =>
    simp only [netSvcEdgesGo] at h
    cases hem : (netEdgesForService m item.name ("services-" ++ item.name) c
        item.service.networks).2.isEmpty with
    | true =>
      rw [hem] at h
      simp only [if_true] at h
      simp only [List.mem_cons] at h
      rcases h with h | h
      · subst h
        exact ⟨⟨item, List.mem_cons_self _ _, rfl⟩, Or.inl ⟨rfl, rfl⟩⟩
      · obtain ⟨⟨it, hit, htgt⟩, hsrc⟩ := ih h
        exact ⟨⟨it, List.mem_cons_of_mem _ hit, htgt⟩, hsrc⟩
    | false =>
      rw [hem] at h
      simp only [Bool.false_eq_true, if_false] at h
      rcases List.mem_append.mp h with h | h
      · obtain ⟨htgt, hsrc⟩ := mem_netEdgesForService h
        exact ⟨⟨item, List.mem_cons_self _ _, htgt⟩, Or.inr hsrc⟩
      · obtain ⟨⟨it, hit, htgt⟩, hsrc⟩ := ih h
        exact ⟨⟨it, List.mem_cons_of_mem _ hit, htgt⟩, hsrc⟩

/-- Each dependency edge of one service is unlabeled, sourced at that
service, and targets a value of the service map. -/
theorem mem_dependsEdgesForService {m : List (String × String)} {sourceID : String}
    {c : Nat} {deps : List String} {e : ReactFlowEdge}
    (h : e ∈ (dependsEdgesForService m sourceID c deps).2) :
    e.source = sourceID ∧ e.label = "" ∧ ∃ dep, lookupAssoc m dep = some e.target := by
  induction deps generalizing c with
  | nil => simp [dependsEdgesForService] at h
  | cons dep rest ih =>
    simp only [dependsEdgesForService] at h
    cases hl : lookupAssoc m dep with
    | some tid =>
      rw [hl] at h
      simp only [List.mem_cons] at h
      rcases h with h | h
      · subst h
        exact ⟨rfl, rfl, dep, hl⟩
      · exact ih h
    | none =>
      rw [hl] at h
      exact ih h

/-- Every dependency edge is unlabeled and targets a service-map value. -/
theorem mem_dependsEdgesGo {m : List (String × String)} {c : Nat}
    {l : List serviceWithOrder} {e : ReactFlowEdge}
    (h : e ∈ dependsEdgesGo m c l) :
    e.label = "" ∧ ∃ dep, lookupAssoc m dep = some e.target := by
  induction l generalizing c with
  | nil => simp [dependsEdgesGo] at h
  | cons item rest ih =>
    simp only [dependsEdgesGo] at h
    rcases List.mem_append.mp h with h | h
    · obtain ⟨_, hlab, htgt⟩ := mem_dependsEdgesForService h
      exact ⟨hlab, htgt⟩
    · exact ih h

/-- Each service→volume edge of one service's mounts is unlabeled,
sourced at that service, and targets a "volume-" id with a nonempty
source name. -/
theorem mem_svcVolEdgesForService {serviceNodes : List ReactFlowNode}
    {volumeUsage : List (String × List String)} {sourceID : String} {c : Nat}
    {mounts : List VolumeMount} {e : ReactFlowEdge}
    (h : e ∈ (svcVolEdgesForService serviceNodes volumeUsage sourceID c mounts).2) :
    e.source = sourceID ∧ e.label = "" ∧
      ∃ s, s ≠ "" ∧ e.target = "volume-" ++ s := by
  induction mounts generalizing c with
  | nil => simp [svcVolEdgesForService] at h
  | cons mnt rest ih =>
    simp only [svcVolEdgesForService] at h
    split at h
    case isTrue hcond =>
      split at h
      case isTrue hex =>
        simp only [List.mem_cons] at h
        rcases h with h | h
        · subst h
          exact ⟨rfl, rfl, mnt.source, hcond.2, rfl⟩
        · exact ih h
      case isFalse hex =>
        exact ih h
    case isFalse hcond =>
      exact ih h

/-- Every service→volume edge is unlabeled and targets a "volume-" id. -/
theorem mem_svcVolEdgesGo {serviceNodes : List ReactFlowNode}
    {volumeUsage : List (String × List String)} {c : Nat}
    {l : List serviceWithOrder} {e : ReactFlowEdge}
    (h : e ∈ svcVolEdgesGo serviceNodes volumeUsage c l) :
    e.label = "" ∧ ∃ s, s ≠ "" ∧ e.target = "volume-" ++ s := by
  induction l generalizing c with
  | nil => simp [svcVolEdgesGo] at h
  | cons item rest ih =>
    simp only [svcVolEdgesGo] at h
    rcases List.mem_append.mp h with h | h
    · obtain ⟨_, hlab, htgt⟩ := mem_svcVolEdgesForService h
      exact ⟨hlab, htgt⟩
    · exact ih h

/-- Every edge of the output targets a "services-" or a "volume-" node
id, and every edge sourced at the root is unlabeled. -/
theorem parse_edge_shape (p : ComposeProjectConfig) (o : Option GraphLayoutOptions)
    (e : ReactFlowEdge) (h : e ∈ (ParseToReactFlow p o).edges) :
    ((∃ s, e.target = "services-" ++ s) ∨ (∃ s, e.target = "volume-" ++ s)) ∧
      (e.source = "docker-compose" → e.label = "") := by
  have h' : e ∈
      netSvcEdgesGo
          (createNetworkNodes p (initDefaultOptions o)
            (calculateGraphDimensions p (initDefaultOptions o))).2 0
          (getSortedServices p.services p.serviceOrder) ++
        dependsEdgesGo
          (createServiceNodes p (initDefaultOptions o)
            (calculateGraphDimensions p (initDefaultOptions o))).2 0
          (getSortedServices p.services p.serviceOrder) ++
        svcVolEdgesGo
          (createServiceNodes p (initDefaultOptions o)
            (calculateGraphDimensions p (initDefaultOptions o))).1
          (collectUsageGo [] (getSortedServices p.services p.serviceOrder)) 0
          (getSortedServices p.services p.serviceOrder) := h
  rcases List.mem_append.mp h' with h'' | h''
  · rcases List.mem_append.mp h'' with hn | hd
    · obtain ⟨⟨item, _, htgt⟩, hsrc⟩ := mem_netSvcEdgesGo hn
      refine ⟨Or.inl ⟨item.name, htgt⟩, ?_⟩
      rcases hsrc with ⟨_, hlab⟩ | ⟨n', hl⟩
      · exact fun _ => hlab
      · intro hdc
        have hv := mem_networkNodeMap (lookupAssoc_mem hl)
        exact absurd (hv ▸ hdc) (network_id_ne_compose _)
    · obtain ⟨hlab, dep, hl⟩ := mem_dependsEdgesGo hd
      have hv := mem_serviceMap (lookupAssoc_mem hl)
      exact ⟨Or.inl ⟨dep, hv⟩, fun _ => hlab⟩
  · obtain ⟨hlab, s, _, htgt⟩ := mem_svcVolEdgesGo h''
    exact ⟨Or.inr ⟨s, htgt⟩, fun _ => hlab⟩

/-! ## C3 (amended) -/

/-- C3 (amended): the layout creates no root→network edges at all — for
every project, options, and network name there is no edge targeting the
network's node id — and Scenario C (network "front", service "s" member
of "front") yields exactly 3 nodes and the single labeled
network→service edge, with no fallback edge. -/
theorem c3_no_root_network_edges :
    (∀ (p : ComposeProjectConfig) (o : Option GraphLayoutOptions) (n : String),
        (ParseToReactFlow p o).edges.filter
          (fun e => e.target == "network-" ++ n) = []) ∧
      ((ParseToReactFlow projScenarioC none).nodes.map (fun nd => nd.id) =
        ["docker-compose", "network-front", "services-s"]) ∧
      ((ParseToReactFlow projScenarioC none).edges.map
        (fun e => (e.id, e.source, e.target, e.label)) =
        [("edge-network-services-front-s", "network-front", "services-s", "front")]) := by
  refine ⟨?_, rfl, rfl⟩
  intro p o n
  rw [List.filter_eq_nil_iff]
  intro e he
  obtain ⟨htgt, _⟩ := parse_edge_shape p o e he
  simp only [beq_iff_eq]
  rcases htgt with ⟨s, hs⟩ | ⟨s, hs⟩
  · rw [hs]
    exact services_id_ne_network s n
  · rw [hs]
    exact volume_id_ne_network s n

/-! ## C4 (amended) -/

/-- C4 (amended): the root→unused-volume edge is constructed by the
source but never added to any output: for every project and options no
output edge is sourced at the root with label "unused", while each
unused volume still yields a node with reduced opacity and status
"unused" (shown on the one-unused-volume project, whose edge list is
empty). -/
theorem c4_unused_volume_edge_dropped :
    (∀ (p : ComposeProjectConfig) (o : Option GraphLayoutOptions),
        (ParseToReactFlow p o).edges.filter
          (fun e => e.source == "docker-compose" && e.label == "unused") = []) ∧
      (ParseToReactFlow projUnusedVol none).edges = [] ∧
      ((ParseToReactFlow projUnusedVol none).nodes.map
        (fun nd => (nd.id, nd.data.status, nd.style)) =
        [("docker-compose", "", []),
         ("volume-v", "unused", [("opacity", PropValue.q 0.5)])]) := by
  refine ⟨?_, rfl, rfl⟩
  intro p o
  rw [List.filter_eq_nil_iff]
  intro e he
  obtain ⟨_, hroot⟩ := parse_edge_shape p o e he
  by_cases hs : e.source = "docker-compose"
  · have hlab := hroot hs
    have e1 : (e.label == "unused") = false := by
      rw [hlab]
      decide
    simp [e1]
  · have e1 : (e.source == "docker-compose") = false := by
      simpa using hs
    simp [e1]

/-- Every node produced by `createVolumeNodes` has kind "volume". -/
theorem mem_createVolumeNodes {p : ComposeProjectConfig} {o : GraphLayoutOptions}
    {dims : GraphDimensions} {usage : List (String × List String)}
    {pos : List (String × ReactFlowPosition)} {nd : ReactFlowNode}
    (h : nd ∈ createVolumeNodes p o dims usage pos) : nd.type = "volume" := by
  rcases List.mem_append.mp h with h' | h'
  · exact mem_placeUsedVolumesGo h'
  · exact mem_placeUnusedVolumesGo h'

/-! ## C9 (amended) -/

/-- C9 (amended): the X-position formulas are anchored at the dimension
calculator's root column origin (`dockerComposeX = 0`), not at the root
node's drawn position: every service node sits at X = origin + columnGap
(= serviceStartX), every network node at X = origin + 20, while the root
node itself is drawn at X = the rootColumnStartX option (default −350,
so the network column sits between the drawn root and the services). -/
theorem c9_column_x_positions :
    ∀ (p : ComposeProjectConfig) (o : Option GraphLayoutOptions),
      (calculateGraphDimensions p (initDefaultOptions o)).dockerComposeX = 0 ∧
      (calculateGraphDimensions p (initDefaultOptions o)).serviceStartX =
        (calculateGraphDimensions p (initDefaultOptions o)).dockerComposeX +
          (initDefaultOptions o).columnGap ∧
      (ParseToReactFlow p o).nodes.all (fun nd =>
        (nd.type != "services" ||
          nd.position.x ==
            (calculateGraphDimensions p (initDefaultOptions o)).serviceStartX) &&
        (nd.type != "network" ||
          nd.position.x ==
            (calculateGraphDimensions p (initDefaultOptions o)).dockerComposeX + 20) &&
        (nd.type != "compose" ||
          nd.position.x == (initDefaultOptions o).dockerComposeStart)) = true := by
  intro p o
  refine ⟨rfl, rfl, ?_⟩
  rw [List.all_eq_true]
  intro nd hnd
  have h' : nd ∈
      [createDockerComposeNode p (initDefaultOptions o)
          (calculateGraphDimensions p (initDefaultOptions o))] ++
        (createNetworkNodes p (initDefaultOptions o)
          (calculateGraphDimensions p (initDefaultOptions o))).1 ++
        (createServiceNodes p (initDefaultOptions o)
          (calculateGraphDimensions p (initDefaultOptions o))).1 ++
        createVolumeNodes p (initDefaultOptions o)
          (calculateGraphDimensions p (initDefaultOptions o))
          (collectVolumeUsage p
            (createServiceNodes p (initDefaultOptions o)
              (calculateGraphDimensions p (initDefaultOptions o))).1).1
          (collectVolumeUsage p
            (createServiceNodes p (initDefaultOptions o)
              (calculateGraphDimensions p (initDefaultOptions o))).1).2 := hnd
  rcases List.mem_append.mp h' with h2 | hvol
  · rcases List.mem_append.mp h2 with h3 | hsvc
    · rcases List.mem_append.mp h3 with hdc | hnet
      · -- the root node
        have hd : nd = createDockerComposeNode p (initDefaultOptions o)
            (calculateGraphDimensions p (initDefaultOptions o)) :=
          List.mem_singleton.mp hdc
        subst hd
        have e1 : (("compose" : String) != "services") = true := by decide
        have e2 : (("compose" : String) != "network") = true := by decide
        have e3 : (("compose" : String) != "compose") = false := by decide
        simp [createDockerComposeNode, e1, e2, e3]
      · -- a network node
        obtain ⟨ht, hx⟩ := mem_createNetworkNodesGo hnet
        have e1 : (nd.type != "services") = true := by rw [ht]; decide
        have e2 : (nd.type != "network") = false := by rw [ht]; decide
        have e3 : (nd.type != "compose") = true := by rw [ht]; decide
        have e4 : (nd.position.x ==
            (calculateGraphDimensions p (initDefaultOptions o)).dockerComposeX + 20) = true := by
          rw [hx]
          exact beq_self_eq_true _
        simp [e1, e2, e3, e4]
    · -- a service node
      obtain ⟨ht, hx⟩ := mem_createServiceNodesGo hsvc
      have e1 : (nd.type != "services") = false := by rw [ht]; decide
      have e2 : (nd.type != "network") = true := by rw [ht]; decide
      have e3 : (nd.type != "compose") = true := by rw [ht]; decide
      have e4 : (nd.position.x ==
          (calculateGraphDimensions p (initDefaultOptions o)).serviceStartX) = true := by
        rw [hx]
        exact beq_self_eq_true _
      simp [e1, e2, e3, e4]
  · -- a volume node
    have ht := mem_createVolumeNodes hvol
    have e1 : (nd.type != "services") = true := by rw [ht]; decide
    have e2 : (nd.type != "network") = true := by rw [ht]; decide
    have e3 : (nd.type != "compose") = true := by rw [ht]; decide
    simp [e1, e2, e3]

/-! ## Counter ids for dependency edges (C2 support) -/

/-- Splitting a consecutive counter-id run. -/
theorem counterIds_append (pre : String) : ∀ (a c b : Nat),
    counterIds pre c a ++ counterIds pre (c + a) b = counterIds pre c (a + b) := by
  intro a
  induction a with
  | zero =>
    intro c b
    simp [counterIds]
  | succ a ih =>
    intro c b
    have h1 : c + (a + 1) = (c + 1) + a := by omega
    have h2 : a + 1 + b = (a + b) + 1 := by omega
    rw [h2]
    simp only [counterIds, List.cons_append, h1, ih (c + 1) b]

/-- The inner dependency loop advances the counter by the number of
emitted edges, and those edges carry the consecutive counter ids. -/
theorem dependsEdgesForService_ids (m : List (String × String)) (src : String)
    (deps : List String) : ∀ c : Nat,
    (dependsEdgesForService m src c deps).1 =
        c + (dependsEdgesForService m src c deps).2.length ∧
      (dependsEdgesForService m src c deps).2.map (fun e => e.id) =
        counterIds "edge-depends-" c (dependsEdgesForService m src c deps).2.length := by
  induction deps with
  | nil =>
    intro c
    simp [dependsEdgesForService, counterIds]
  | cons dep rest ih =>
    intro c
    simp only [dependsEdgesForService]
    cases hl : lookupAssoc m dep with
    | some tid =>
      obtain ⟨ih1, ih2⟩ := ih (c + 1)
      refine ⟨?_, ?_⟩
      · simp only [List.length_cons, ih1]
        omega
      · simp only [List.map_cons, List.length_cons, ih2, counterIds]
    | none => exact ih c

/-- Every dependency edge id is the consecutive counter id of its
position in the traversal. -/
theorem dependsEdgesGo_ids (m : List (String × String))
    (l : List serviceWithOrder) : ∀ c : Nat,
    (dependsEdgesGo m c l).map (fun e => e.id) =
      counterIds "edge-depends-" c (dependsEdgesGo m c l).length := by
  induction l with
  | nil =>
    intro c
    simp [dependsEdgesGo, counterIds]
  | cons item rest ih =>
    intro c
    simp only [dependsEdgesGo]
    obtain ⟨h1, h2⟩ :=
      dependsEdgesForService_ids m ("services-" ++ item.name) item.service.dependsOn c
    rw [List.map_append, h2, List.length_append, ih _, h1, counterIds_append]


/-! ## Comparator tie-break (C8 support) -/

theorem orderLess_zero (ord : List String) (nI nJ : String) :
    orderLess ord nI 0 nJ 0 = idxDecision (findOrderIdxs nI nJ 0 (-1) (-1) ord) := by
  simp only [orderLess, idxDecision, and_self, if_true]
  split
  · rfl
  · split
    · rfl
    · split
      · rfl
      · decide

theorem findOrderIdxs_left (nI nJ : String) (hne : nI ≠ nJ) :
    ∀ (l : List String) (k idxI : Int), 0 ≤ idxI → idxI < k →
      idxDecision (findOrderIdxs nI nJ k idxI (-1) l) = true := by
  intro l
  induction l with
  | nil =>
    intro k idxI h1 h2
    have hI : ¬ idxI = -1 := by omega
    simp [findOrderIdxs, idxDecision, hI]
  | cons nm rest ih =>
    intro k idxI h1 h2
    simp only [findOrderIdxs]
    by_cases hJ : nm = nJ
    · have hI : ¬ nm = nI := fun hc => hne (by rw [← hc, hJ])
      rw [if_neg hI, if_pos hJ]
      have hc : idxI ≠ -1 ∧ k ≠ -1 := ⟨by omega, by omega⟩
      rw [if_pos hc]
      have : idxI < k := h2
      simp [idxDecision, hc.1, hc.2, this]
    · rw [if_neg hJ]
      by_cases hI : nm = nI
      · rw [if_pos hI]
        rw [if_neg (by simp)]
        exact ih (k + 1) k (by omega) (by omega)
      · rw [if_neg hI]
        rw [if_neg (by simp)]
        exact ih (k + 1) idxI h1 (by omega)

theorem findOrderIdxs_right (nI nJ : String) (hne : nI ≠ nJ) :
    ∀ (l : List String) (k idxJ : Int), 0 ≤ idxJ → idxJ < k →
      idxDecision (findOrderIdxs nI nJ k (-1) idxJ l) = false := by
  intro l
  induction l with
  | nil =>
    intro k idxJ h1 h2
    simp [findOrderIdxs, idxDecision]
  | cons nm rest ih =>
    intro k idxJ h1 h2
    simp only [findOrderIdxs]
    by_cases hI : nm = nI
    · have hJ : ¬ nm = nJ := fun hc => hne (by rw [← hI, hc])
      rw [if_pos hI, if_neg hJ]
      have hc : k ≠ -1 ∧ idxJ ≠ -1 := ⟨by omega, by omega⟩
      rw [if_pos hc]
      have hlt : ¬ k < idxJ := by omega
      simp [idxDecision, hc.1, hc.2, hlt]
    · rw [if_neg hI]
      by_cases hJ : nm = nJ
      · rw [if_pos hJ]
        rw [if_neg (by simp)]
        exact ih (k + 1) k (by omega) (by omega)
      · rw [if_neg hJ]
        rw [if_neg (by simp)]
        exact ih (k + 1) idxJ h1 (by omega)

theorem findOrderIdxs_spec (nI nJ : String) (hne : nI ≠ nJ) :
    ∀ (l : List String) (k : Int), 0 ≤ k →
      idxDecision (findOrderIdxs nI nJ k (-1) (-1) l) = specTieLess l nI nJ := by
  intro l
  induction l with
  | nil =>
    intro k hk
    simp [findOrderIdxs, idxDecision, specTieLess]
  | cons nm rest ih =>
    intro k hk
    simp only [findOrderIdxs]
    by_cases hI : nm = nI
    · have hJ : ¬ nm = nJ := fun hc => hne (by rw [← hI, hc])
      rw [if_pos hI, if_neg hJ]
      rw [if_neg (by simp)]
      rw [findOrderIdxs_left nI nJ hne rest (k + 1) k hk (by omega)]
      simp only [specTieLess, List.findIdx?_cons, List.findIdx?_succ, Nat.zero_add]
      have eI : (nm == nI) = true := by simp [hI]
      have eJ : (nm == nJ) = false := by simp [hJ]
      rw [eI, eJ]
      simp only [if_true, Bool.false_eq_true, if_false]
      cases hfj : rest.findIdx? (fun x => x == nJ) with
      | none => simp
      | some fj => simp
    · rw [if_neg hI]
      by_cases hJ : nm = nJ
      · rw [if_pos hJ]
        rw [if_neg (by simp)]
        rw [findOrderIdxs_right nI nJ hne rest (k + 1) k hk (by omega)]
        simp only [specTieLess, List.findIdx?_cons, List.findIdx?_succ, Nat.zero_add]
        have eI : (nm == nI) = false := by simp [hI]
        have eJ : (nm == nJ) = true := by simp [hJ]
        rw [eI, eJ]
        simp only [if_true, Bool.false_eq_true, if_false]
        cases hfi : rest.findIdx? (fun x => x == nI) with
        | none => simp
        | some fi => simp
      · rw [if_neg hJ]
        rw [if_neg (by simp)]
        rw [ih (k + 1) (by omega)]
        simp only [specTieLess, List.findIdx?_cons, List.findIdx?_succ, Nat.zero_add]
        have eI : (nm == nI) = false := by simp [hI]
        have eJ : (nm == nJ) = false := by simp [hJ]
        rw [eI, eJ]
        simp only [Bool.false_eq_true, if_false]
        cases hfi : rest.findIdx? (fun x => x == nI) with
        | none =>
          cases hfj : rest.findIdx? (fun x => x == nJ) with
          | none => simp
          | some fj => simp
        | some fi =>
          cases hfj : rest.findIdx? (fun x => x == nJ) with
          | none => simp
          | some fj => simp [Nat.succ_lt_succ_iff]

/-! ## C8 -/

/-- C8: when both compared entities carry order zero, the comparator
used (identically) by `getSortedServices` and `getSortedVolumes` equals
the spec's tie-break: compare the first-occurrence positions of the two
names in the declared order list captured at decode time; a name absent
from that list sorts after all named entries; if only one side is found,
the found one sorts first.  First occurrence wins for duplicate names:
the loop may internally record a later duplicate occurrence, but its
decision always coincides with the first-occurrence comparison. -/
theorem c8_tie_break_matches_spec :
    ∀ (declaredOrder : List String) (nameI nameJ : String),
      nameI ≠ nameJ →
      orderLess declaredOrder nameI 0 nameJ 0 =
        specTieLess declaredOrder nameI nameJ := by
  intro ord nI nJ hne
  rw [orderLess_zero]
  exact findOrderIdxs_spec nI nJ hne ord 0 le_rfl

/-- C8 witness: concrete instantiation with a duplicated name in the
declared order list. -/
theorem c8_tie_break_matches_spec_witness :
    (("a" : String) ≠ "b") ∧
      orderLess ["a", "a", "b"] "a" 0 "b" 0 =
        specTieLess ["a", "a", "b"] "a" "b" :=
  ⟨by decide, c8_tie_break_matches_spec ["a", "a", "b"] "a" "b" (by decide)⟩

/-! ## Used-volume placement (C5 support) -/

/-- The source's clamp `if desired < m then m else desired` is the
spec's `max`. -/
theorem clamp_eq_max (d m : Int) : (if d < m then m else d) = max d m := by
  rcases lt_or_le d m with h | h
  · rw [if_pos h, max_eq_right h.le]
  · rw [if_neg (not_lt.mpr h), max_eq_left h]

/-- Continuation case: placed Y positions follow the spec recurrence. -/
theorem placeUsedVolumesGo_y_false (o : GraphLayoutOptions) :
    ∀ (l : List positionedVolume) (lastY : Int),
      (placeUsedVolumesGo o false lastY l).map (fun n => n.position.y) =
        specUsedYsGo o lastY (l.map (fun v => v.targetY)) := by
  intro l
  induction l with
  | nil => intro lastY; rfl
  | cons v rest ih =>
    intro lastY
    simp only [placeUsedVolumesGo, specUsedYsGo, List.map_cons,
      Bool.false_eq_true, if_false,
      clamp_eq_max v.targetY (lastY + o.columnTopGap)]
    rw [ih]

/-- First case: placed Y positions follow the spec recurrence. -/
theorem placeUsedVolumesGo_y_true (o : GraphLayoutOptions)
    (l : List positionedVolume) (lastY : Int) :
    (placeUsedVolumesGo o true lastY l).map (fun n => n.position.y) =
      specUsedYs o (l.map (fun v => v.targetY)) := by
  cases l with
  | nil => rfl
  | cons v rest =>
    simp only [placeUsedVolumesGo, specUsedYs, List.map_cons, if_true,
      clamp_eq_max v.targetY o.padding]
    rw [placeUsedVolumesGo_y_false]

/-- Placed X positions are the mean service X plus the offset. -/
theorem placeUsedVolumesGo_x (o : GraphLayoutOptions) :
    ∀ (l : List positionedVolume) (isFirst : Bool) (lastY : Int),
      (placeUsedVolumesGo o isFirst lastY l).map (fun n => n.position.x) =
        l.map (fun v => v.serviceX + o.volumeXOffset) := by
  intro l
  induction l with
  | nil => intro isFirst lastY; rfl
  | cons v rest ih =>
    intro isFirst lastY
    cases isFirst
    · simp only [placeUsedVolumesGo, List.map_cons]
      rw [ih]
    · simp only [placeUsedVolumesGo, List.map_cons]
      rw [ih]

/-- The spec recurrence from a previous Y yields strictly increasing
values, all above the previous Y, when columnTopGap is positive. -/
theorem specUsedYsGo_strict (o : GraphLayoutOptions)
    (hg : 0 < o.columnTopGap) :
    ∀ (ms : List Int) (prev : Int),
      List.Pairwise (fun a b => a < b) (specUsedYsGo o prev ms) ∧
        ∀ y ∈ specUsedYsGo o prev ms, prev < y := by
  intro ms
  induction ms with
  | nil =>
    intro prev
    exact ⟨List.Pairwise.nil, by simp [specUsedYsGo]⟩
  | cons m rest ih =>
    intro prev
    simp only [specUsedYsGo]
    obtain ⟨ih1, ih2⟩ := ih (max m (prev + o.columnTopGap))
    have hmax : prev + o.columnTopGap ≤ max m (prev + o.columnTopGap) :=
      le_max_right _ _
    constructor
    · exact List.pairwise_cons.mpr ⟨fun y hy => ih2 y hy, ih1⟩
    · intro y hy
      rcases List.mem_cons.mp hy with hy | hy
      · omega
      · have := ih2 y hy
        omega

/-- The full spec recurrence yields strictly increasing Y values when
columnTopGap is positive. -/
theorem specUsedYs_strict (o : GraphLayoutOptions) (hg : 0 < o.columnTopGap)
    (ms : List Int) :
    List.Pairwise (fun a b => a < b) (specUsedYs o ms) := by
  cases ms with
  | nil => exact List.Pairwise.nil
  | cons m rest =>
    simp only [specUsedYs]
    obtain ⟨h1, h2⟩ := specUsedYsGo_strict o hg rest (max m o.padding)
    exact List.pairwise_cons.mpr ⟨fun y hy => h2 y hy, h1⟩

/-! ## C5 -/

/-- C5: for every project and options with positive columnTopGap, the
used-volume nodes are placed in ascending order of the truncating
integer mean Y of their users' positions; the first is placed at
Y = max(meanY, padding), each subsequent at
Y = max(meanY, previousPlacedY + columnTopGap); X = meanX +
volumeXOffset; and no two used-volume nodes share a Y position (Y is
strictly increasing). -/
theorem c5_used_volume_placement :
    ∀ (p : ComposeProjectConfig) (o : Option GraphLayoutOptions),
      0 < (initDefaultOptions o).columnTopGap → c5Property p o := by
  intro p o hg
  refine ⟨rfl, sortSlice_targetY_sorted _, placeUsedVolumesGo_y_true _ _ _,
    placeUsedVolumesGo_x _ _ _ _, ?_⟩
  have hy := placeUsedVolumesGo_y_true (initDefaultOptions o) (c5UsedVolumes p o)
    (initDefaultOptions o).lastY
  have hstrict := specUsedYs_strict (initDefaultOptions o) hg
    ((c5UsedVolumes p o).map (fun v => v.targetY))
  rw [← hy] at hstrict
  exact (List.pairwise_map).mp hstrict

/-- C5 witness: the two-service, two-volume project with default
options. -/
theorem c5_used_volume_placement_witness :
    0 < (initDefaultOptions none).columnTopGap ∧ c5Property projTwoVols none :=
  ⟨by decide, c5_used_volume_placement projTwoVols none (by decide)⟩


/-! ## Per-service edge counting (C6 support) -/

theorem filter_netEdgesForService_ne {m : List (String × String)}
    {nm nodeID : String} {c : Nat} {nets : List String} {tgt : String}
    (f : ReactFlowEdge → Bool) (h : nodeID ≠ tgt) :
    (netEdgesForService m nm nodeID c nets).2.filter
      (fun e => f e && e.target == tgt) = [] := by
  rw [List.filter_eq_nil_iff]
  intro e he
  obtain ⟨htgt, _⟩ := mem_netEdgesForService he
  simp only [Bool.and_eq_true, beq_iff_eq, not_and]
  intro _ htgt'
  exact h (htgt.symm.trans htgt')

theorem filter_netEdgesForService_fallback {m : List (String × String)}
    (hm : ∀ kv ∈ m, kv.2 = "network-" ++ kv.1)
    {nm nodeID : String} {c : Nat} {nets : List String} {tgt : String} :
    (netEdgesForService m nm nodeID c nets).2.filter
      (fun e => e.source == "docker-compose" && e.target == tgt) = [] := by
  rw [List.filter_eq_nil_iff]
  intro e he
  obtain ⟨_, n', hl⟩ := mem_netEdgesForService he
  have hv := hm _ (lookupAssoc_mem hl)
  simp only [Bool.and_eq_true, beq_iff_eq, not_and]
  intro hsrc _
  exact network_id_ne_compose n' (hv.symm.trans hsrc)

theorem filter_netEdgesForService_self {m : List (String × String)}
    (hm : ∀ kv ∈ m, kv.2 = "network-" ++ kv.1)
    {nm nodeID : String} {c : Nat} {nets : List String} :
    (netEdgesForService m nm nodeID c nets).2.filter
      (fun e => !(e.source == "docker-compose") && e.target == nodeID) =
      (netEdgesForService m nm nodeID c nets).2 := by
  rw [List.filter_eq_self]
  intro e he
  obtain ⟨htgt, n', hl⟩ := mem_netEdgesForService he
  have hv := hm _ (lookupAssoc_mem hl)
  have h1 : (e.source == "docker-compose") = false := by
    simp only [beq_eq_false_iff_ne, ne_eq]
    intro hsrc
    exact network_id_ne_compose n' (hv.symm.trans hsrc)
  simp [h1, htgt]

theorem netSvcEdgesGo_filter_none {m : List (String × String)}
    (f : ReactFlowEdge → Bool) {l : List serviceWithOrder} {c : Nat}
    {tgt : String} (h : ∀ it ∈ l, ("services-" ++ it.name) ≠ tgt) :
    (netSvcEdgesGo m c l).filter (fun e => f e && e.target == tgt) = [] := by
  rw [List.filter_eq_nil_iff]
  intro e he
  obtain ⟨⟨it, hit, htgt⟩, _⟩ := mem_netSvcEdgesGo he
  simp only [Bool.and_eq_true, beq_iff_eq, not_and]
  intro _ htgt'
  exact h it hit (htgt ▸ htgt')

theorem netSvcEdgesGo_filter_counts {m : List (String × String)}
    (hm : ∀ kv ∈ m, kv.2 = "network-" ++ kv.1) :
    ∀ {l : List serviceWithOrder} (item : serviceWithOrder),
      item ∈ l → (l.map (fun it => it.name)).Nodup →
      ∀ c : Nat,
      ((netSvcEdgesGo m c l).filter
        (fun e => e.source == "docker-compose" &&
          e.target == ("services-" ++ item.name))).length =
        (if (item.service.networks.filter
            (fun n => (lookupAssoc m n).isSome)).length = 0 then 1 else 0) ∧
      ((netSvcEdgesGo m c l).filter
        (fun e => !(e.source == "docker-compose") &&
          e.target == ("services-" ++ item.name))).length =
        (item.service.networks.filter (fun n => (lookupAssoc m n).isSome)).length := by
  intro l
  induction l with
  | nil =>
    intro item hmem
    exact absurd hmem (List.not_mem_nil _)
  | cons it0 rest ih =>
    intro item hmem hnd c
    rw [List.map_cons, List.nodup_cons] at hnd
    obtain ⟨hno, hndrest⟩ := hnd
    rcases List.mem_cons.mp hmem with heq | hmem'
    · subst heq
      have hrest : ∀ it ∈ rest,
          ("services-" ++ it.name) ≠ ("services-" ++ item.name) := by
        intro it hit hcontra
        have hn := str_append_cancel hcontra
        exact hno (hn ▸ List.mem_map_of_mem (fun x => x.name) hit)
      have hlen := length_netEdgesForService m item.name ("services-" ++ item.name)
        item.service.networks c
      simp only [netSvcEdgesGo]
      cases hie : (netEdgesForService m item.name ("services-" ++ item.name) c
          item.service.networks).2.isEmpty
      · rw [if_neg Bool.false_ne_true]
        have hres : (item.service.networks.filter
            (fun n => (lookupAssoc m n).isSome)).length ≠ 0 := by
          intro h0
          rw [← hlen, List.length_eq_zero] at h0
          rw [h0] at hie
          simp at hie
        constructor
        · rw [List.filter_append, filter_netEdgesForService_fallback hm,
            netSvcEdgesGo_filter_none _ hrest, if_neg hres]
          rfl
        · rw [List.filter_append, filter_netEdgesForService_self hm,
            netSvcEdgesGo_filter_none _ hrest, List.append_nil, hlen]
      · rw [if_pos rfl]
        have hres : (item.service.networks.filter
            (fun n => (lookupAssoc m n).isSome)).length = 0 := by
          rw [← hlen, List.length_eq_zero, ← List.isEmpty_iff]
          exact hie
        rw [if_pos hres]
        constructor
        · rw [List.filter_cons]
          have hpred : ((("docker-compose" : String) == "docker-compose") &&
              (("services-" ++ item.name) == ("services-" ++ item.name))) = true := by
            simp
          rw [if_pos hpred, netSvcEdgesGo_filter_none _ hrest]
          rfl
        · rw [List.filter_cons]
          have hpred : ((!(("docker-compose" : String) == "docker-compose")) &&
              (("services-" ++ item.name) == ("services-" ++ item.name))) = false := by
            simp
          rw [if_neg (by simp [hpred]), netSvcEdgesGo_filter_none _ hrest, hres]
          rfl
    · have hne0 : ("services-" ++ it0.name) ≠ ("services-" ++ item.name) := by
        intro hcontra
        have hn := str_append_cancel hcontra
        exact hno (hn ▸ List.mem_map_of_mem (fun x => x.name) hmem')
      simp only [netSvcEdgesGo]
      cases hie : (netEdgesForService m it0.name ("services-" ++ it0.name) c
          it0.service.networks).2.isEmpty
      · rw [if_neg Bool.false_ne_true]
        obtain ⟨ih1, ih2⟩ := ih item hmem' hndrest
          (netEdgesForService m it0.name ("services-" ++ it0.name) c
            it0.service.networks).1
        constructor
        · rw [List.filter_append,
            filter_netEdgesForService_ne (fun e => e.source == "docker-compose") hne0,
            List.nil_append, ih1]
        · rw [List.filter_append,
            filter_netEdgesForService_ne (fun e => !(e.source == "docker-compose")) hne0,
            List.nil_append, ih2]
      · rw [if_pos rfl]
        obtain ⟨ih1, ih2⟩ := ih item hmem' hndrest
          ((netEdgesForService m it0.name ("services-" ++ it0.name) c
            it0.service.networks).1 + 1)
        have htf : (("services-" ++ it0.name) == ("services-" ++ item.name)) = false := by
          simp only [beq_eq_false_iff_ne, ne_eq]
          exact hne0
        constructor
        · rw [List.filter_cons]
          rw [if_neg (by simp [htf]), ih1]
        · rw [List.filter_cons]
          rw [if_neg (by simp [htf]), ih2]

/-! ## C6 -/

/-- C6: for every project with unique service names (the Go map
invariant) and every listed service: zero resolvable network
memberships yield exactly one root→service fallback edge and zero
network→service edges for that service (covering services with no
networks and services whose declared networks are all unresolved);
at least one resolvable membership yields zero fallback edges (and one
network→service edge per resolvable membership). -/
theorem c6_fallback_edges :
    ∀ (p : ComposeProjectConfig) (o : Option GraphLayoutOptions)
      (item : serviceWithOrder),
      (p.services.map Prod.fst).Nodup →
      item ∈ getSortedServices p.services p.serviceOrder →
      fallbackProperty p o item := by
  intro p o item hnd hmem
  have h1 : List.Perm (getSortedServices p.services p.serviceOrder)
      (p.services.map (fun kv =>
        ({ name := kv.1, order := kv.2.order, service := kv.2 } : serviceWithOrder))) :=
    sortSlice_perm _ _
  have hperm := h1.map (fun it => it.name)
  rw [List.map_map] at hperm
  have h2 : ((fun it : serviceWithOrder => it.name) ∘
      (fun kv : String × ComposeServiceConfig =>
        ({ name := kv.1, order := kv.2.order, service := kv.2 } : serviceWithOrder))) =
      Prod.fst := funext fun kv => rfl
  rw [h2] at hperm
  have hndsorted := (hperm.nodup_iff).mpr hnd
  have hmprop : ∀ kv ∈ (createNetworkNodes p (initDefaultOptions o)
      (calculateGraphDimensions p (initDefaultOptions o))).2,
      kv.2 = "network-" ++ kv.1 := by
    intro kv hkv
    obtain ⟨k, v⟩ := kv
    exact mem_networkNodeMap hkv
  obtain ⟨h3, h4⟩ := netSvcEdgesGo_filter_counts hmprop item hmem hndsorted 0
  refine ⟨h4, ?_, ?_⟩
  · intro hres
    have h5 := h3
    rw [if_pos hres] at h5
    exact h5
  · intro hres
    have h5 := h3
    rw [if_neg (by omega)] at h5
    exact h5

/-- C6 witness: Scenario C's service "s", a member of the declared
network "front". -/
theorem c6_fallback_edges_witness :
    (projScenarioC.services.map Prod.fst).Nodup ∧
      (⟨"s", 0, { exService with networks := ["front"] }⟩ : serviceWithOrder) ∈
        getSortedServices projScenarioC.services projScenarioC.serviceOrder ∧
      fallbackProperty projScenarioC none
        ⟨"s", 0, { exService with networks := ["front"] }⟩ :=
  ⟨by decide, by decide,
    c6_fallback_edges projScenarioC none _ (by decide) (by decide)⟩

/-! ## Sort determinism under tie-freedom (C2 support) -/

/-- Member-restricted version of `insertLe_pairwise`. -/
theorem insertLe_pairwise_on {α : Type} {le : α → α → Bool} {S : List α}
    (htot : ∀ a ∈ S, ∀ b ∈ S, le a b = true ∨ le b a = true)
    (htrans : ∀ a ∈ S, ∀ b ∈ S, ∀ c ∈ S, le a b = true → le b c = true → le a c = true)
    (x : α) (hx : x ∈ S) : ∀ {l : List α}, (∀ y ∈ l, y ∈ S) →
    List.Pairwise (fun a b => le a b = true) l →
    List.Pairwise (fun a b => le a b = true) (insertLe le x l) := by
  intro l
  induction l with
  | nil =>
    intro _ _
    simp [insertLe]
  | cons y ys ih =>
    intro hsub h
    rw [insertLe]
    rcases List.pairwise_cons.mp h with ⟨hy, hys⟩
    have hyS : y ∈ S := hsub y (List.mem_cons_self _ _)
    have hysS : ∀ z ∈ ys, z ∈ S := fun z hz => hsub z (List.mem_cons_of_mem _ hz)
    by_cases hxy : le x y = true
    · rw [if_pos hxy]
      refine List.pairwise_cons.mpr ⟨?_, h⟩
      intro b hb
      rcases List.mem_cons.mp hb with hb | hb
      · exact hb ▸ hxy
      · exact htrans x hx y hyS b (hysS b hb) hxy (hy b hb)
    · rw [if_neg hxy]
      have hyx : le y x = true := (htot x hx y hyS).resolve_left hxy
      refine List.pairwise_cons.mpr ⟨?_, ih hysS hys⟩
      intro b hb
      have hb' : b ∈ x :: ys := (insertLe_perm le x ys).mem_iff.mp hb
      rcases List.mem_cons.mp hb' with hb' | hb'
      · exact hb' ▸ hyx
      · exact hy b hb'

/-- Member-restricted version of `insertionSortLe_pairwise`. -/
theorem insertionSortLe_pairwise_on {α : Type} {le : α → α → Bool} {S : List α}
    (htot : ∀ a ∈ S, ∀ b ∈ S, le a b = true ∨ le b a = true)
    (htrans : ∀ a ∈ S, ∀ b ∈ S, ∀ c ∈ S, le a b = true → le b c = true → le a c = true) :
    ∀ {l : List α}, (∀ y ∈ l, y ∈ S) →
    List.Pairwise (fun a b => le a b = true) (insertionSortLe le l) := by
  intro l
  induction l with
  | nil =>
    intro _
    exact List.Pairwise.nil
  | cons x xs ih =>
    intro hsub
    refine insertLe_pairwise_on htot htrans x (hsub x (List.mem_cons_self _ _)) ?_
      (ih (fun y hy => hsub y (List.mem_cons_of_mem _ hy)))
    intro y hy
    exact hsub y
      (List.mem_cons_of_mem _ ((insertionSortLe_perm le xs).mem_iff.mp hy))

/-- Two sorted permutations of each other agree, when ties occur only
between equal members. -/
theorem sorted_perm_eq {α : Type} {le : α → α → Bool} :
    ∀ {l₁ l₂ : List α},
      (∀ a ∈ l₁, ∀ b ∈ l₁, le a b = true → le b a = true → a = b) →
      List.Perm l₁ l₂ →
      List.Pairwise (fun a b => le a b = true) l₁ →
      List.Pairwise (fun a b => le a b = true) l₂ →
      l₁ = l₂ := by
  intro l₁
  induction l₁ with
  | nil =>
    intro l₂ _ hp _ _
    exact hp.nil_eq
  | cons x xs ih =>
    intro l₂ hanti hp h₁ h₂
    cases l₂ with
    | nil => exact absurd hp.symm.nil_eq (by simp)
    | cons y ys =>
      rcases List.pairwise_cons.mp h₁ with ⟨hx, hxs⟩
      rcases List.pairwise_cons.mp h₂ with ⟨hy, hys⟩
      by_cases hxy : x = y
      · subst hxy
        have hp' := hp.cons_inv
        have hanti' : ∀ a ∈ xs, ∀ b ∈ xs, le a b = true → le b a = true → a = b :=
          fun a ha b hb => hanti a (List.mem_cons_of_mem _ ha) b (List.mem_cons_of_mem _ hb)
        rw [ih hanti' hp' hxs hys]
      · have hxl₂ : x ∈ y :: ys := hp.mem_iff.mp (List.mem_cons_self _ _)
        have hxys : x ∈ ys := by
          rcases List.mem_cons.mp hxl₂ with h | h
          · exact absurd h hxy
          · exact h
        have hyl₁ : y ∈ x :: xs := hp.symm.mem_iff.mp (List.mem_cons_self _ _)
        have hyxs : y ∈ xs := by
          rcases List.mem_cons.mp hyl₁ with h | h
          · exact absurd h.symm hxy
          · exact h
        have h1 : le x y = true := hx y hyxs
        have h2 : le y x = true := hy x hxys
        exact absurd
          (hanti x (List.mem_cons_self _ _) y (List.mem_cons_of_mem _ hyxs) h1 h2) hxy

/-- Under a tie-free comparator, the `sort.Slice` model maps any two
enumeration orders of the same entries to the same sorted list. -/
theorem sortSlice_eq_of_perm {α : Type} {less : α → α → Bool} {l₁ l₂ : List α}
    (hp : List.Perm l₁ l₂) (hd : SortDeterministic less l₂) :
    sortSlice less l₁ = sortSlice less l₂ := by
  obtain ⟨htrans, htot, hanti⟩ := hd
  have hsub₁ : ∀ y ∈ insertionSortLe (fun a b => !(less b a)) l₁, y ∈ l₂ :=
    fun y hy => hp.mem_iff.mp ((insertionSortLe_perm _ l₁).mem_iff.mp hy)
  have hsub₂ : ∀ y ∈ l₂, y ∈ l₂ := fun y hy => hy
  have hs₁ : List.Pairwise (fun a b => (!(less b a)) = true) (sortSlice less l₁) :=
    insertionSortLe_pairwise_on
      (fun a ha b hb => htot a ha b hb)
      (fun a ha b hb c hc => htrans a ha b hb c hc)
      (fun y hy => hp.mem_iff.mp hy)
  have hs₂ : List.Pairwise (fun a b => (!(less b a)) = true) (sortSlice less l₂) :=
    insertionSortLe_pairwise_on
      (fun a ha b hb => htot a ha b hb)
      (fun a ha b hb c hc => htrans a ha b hb c hc)
      hsub₂
  refine sorted_perm_eq ?_ ((sortSlice_perm _ l₁).trans (hp.trans (sortSlice_perm _ l₂).symm))
    hs₁ hs₂
  intro a ha b hb h1 h2
  have haS : a ∈ l₂ := hp.mem_iff.mp ((sortSlice_perm _ l₁).mem_iff.mp ha)
  have hbS : b ∈ l₂ := hp.mem_iff.mp ((sortSlice_perm _ l₁).mem_iff.mp hb)
  exact hanti a haS b hbS h1 h2

/-- The membership loop advances the counter by the number of edges it
emits. -/
theorem counter_netEdgesForService (m : List (String × String))
    (nm nodeID : String) (nets : List String) : ∀ c : Nat,
    (netEdgesForService m nm nodeID c nets).1 =
      c + (netEdgesForService m nm nodeID c nets).2.length := by
  induction nets with
  | nil =>
    intro c
    simp [netEdgesForService]
  | cons net rest ih =>
    intro c
    simp only [netEdgesForService]
    cases hl : lookupAssoc m net with
    | some nid =>
      simp only [List.length_cons, ih (c + 1)]
      omega
    | none => exact ih c

/-- The inner service→volume loop advances the counter by the number of
emitted edges, which carry the consecutive counter ids. -/
theorem svcVolEdgesForService_ids (serviceNodes : List ReactFlowNode)
    (volumeUsage : List (String × List String)) (src : String)
    (mounts : List VolumeMount) : ∀ c : Nat,
    (svcVolEdgesForService serviceNodes volumeUsage src c mounts).1 =
        c + (svcVolEdgesForService serviceNodes volumeUsage src c mounts).2.length ∧
      (svcVolEdgesForService serviceNodes volumeUsage src c mounts).2.map
          (fun e => e.id) =
        counterIds "edge-services-volume-" c
          (svcVolEdgesForService serviceNodes volumeUsage src c mounts).2.length := by
  induction mounts with
  | nil =>
    intro c
    simp [svcVolEdgesForService, counterIds]
  | cons mnt rest ih =>
    intro c
    simp only [svcVolEdgesForService]
    split
    · split
      · obtain ⟨ih1, ih2⟩ := ih (c + 1)
        refine ⟨?_, ?_⟩
        · simp only [List.length_cons, ih1]
          omega
        · simp only [List.map_cons, List.length_cons, ih2, counterIds]
      · exact ih c
    · exact ih c

/-- Every service→volume edge id is the consecutive counter id of its
position in the traversal. -/
theorem svcVolEdgesGo_ids (serviceNodes : List ReactFlowNode)
    (volumeUsage : List (String × List String))
    (l : List serviceWithOrder) : ∀ c : Nat,
    (svcVolEdgesGo serviceNodes volumeUsage c l).map (fun e => e.id) =
      counterIds "edge-services-volume-" c
        (svcVolEdgesGo serviceNodes volumeUsage c l).length := by
  induction l with
  | nil =>
    intro c
    simp [svcVolEdgesGo, counterIds]
  | cons item rest ih =>
    intro c
    simp only [svcVolEdgesGo]
    obtain ⟨h1, h2⟩ := svcVolEdgesForService_ids serviceNodes volumeUsage
      ("services-" ++ item.name) item.service.volumes c
    rw [List.map_append, h2, List.length_append, ih _, h1, counterIds_append]

/-- Every root fallback edge of the network/fallback pass carries the id
"edge-compose-services-(c + its position + 1)": a pure traversal
counter. -/
theorem netSvcEdgesGo_fallback_ids {m : List (String × String)}
    (hm : ∀ kv ∈ m, kv.2 = "network-" ++ kv.1) :
    ∀ (l : List serviceWithOrder) (c i : Nat) (e : ReactFlowEdge),
      (netSvcEdgesGo m c l)[i]? = some e →
      e.source = "docker-compose" →
      e.id = "edge-compose-services-" ++ toString (c + i + 1) := by
  intro l
  induction l with
  | nil =>
    intro c i e hg
    simp [netSvcEdgesGo] at hg
  | cons item rest ih =>
    intro c i e hg hsrc
    simp only [netSvcEdgesGo] at hg
    have hcnt := counter_netEdgesForService m item.name ("services-" ++ item.name)
      item.service.networks c
    cases hie : (netEdgesForService m item.name ("services-" ++ item.name) c
        item.service.networks).2.isEmpty
    · -- network edges present: they are skipped by the source test
      rw [hie] at hg
      simp only [Bool.false_eq_true, if_false] at hg
      by_cases hi : i < (netEdgesForService m item.name ("services-" ++ item.name) c
          item.service.networks).2.length
      · rw [List.getElem?_append_left hi] at hg
        obtain ⟨_, n', hl⟩ := mem_netEdgesForService (List.getElem?_mem hg)
        have hv := hm _ (lookupAssoc_mem hl)
        exact absurd (hv.symm.trans hsrc) (network_id_ne_compose n')
      · push_neg at hi
        rw [List.getElem?_append_right hi] at hg
        have := ih (netEdgesForService m item.name ("services-" ++ item.name) c
            item.service.networks).1
          (i - (netEdgesForService m item.name ("services-" ++ item.name) c
            item.service.networks).2.length) e hg hsrc
        rw [this, hcnt]
        have harith : c + (netEdgesForService m item.name ("services-" ++ item.name) c
            item.service.networks).2.length +
            (i - (netEdgesForService m item.name ("services-" ++ item.name) c
              item.service.networks).2.length) + 1 = c + i + 1 := by
          omega
        rw [harith]
    · -- no network edges: the head is the fallback edge, counter c + 1
      rw [hie] at hg
      simp only [eq_self_iff_true, if_true] at hg
      have hnil : (netEdgesForService m item.name ("services-" ++ item.name) c
          item.service.networks).2 = [] := by
        rw [← List.isEmpty_iff]
        exact hie
      cases i with
      | zero =>
        rw [List.getElem?_cons_zero] at hg
        injection hg with hg
        subst hg
        rw [hcnt, hnil]
        rfl
      | succ i' =>
        rw [List.getElem?_cons_succ] at hg
        have := ih _ i' e hg hsrc
        rw [this, hcnt, hnil]
        have harith : c + List.length ([] : List ReactFlowEdge) + 1 + i' + 1 =
            c + (i' + 1) + 1 := by
          simp
          omega
        rw [harith]

/-- Re-run determinism: permuting the decoded services/networks/volumes
association lists (the model of Go's arbitrary map iteration order)
leaves the whole output unchanged whenever the ordering resolver is
tie-free. -/
theorem parseToReactFlow_map_order (p : ComposeProjectConfig)
    (o : Option GraphLayoutOptions)
    (s' : List (String × ComposeServiceConfig))
    (n' : List (String × NetworkConfig))
    (v' : List (String × VolumeConfig))
    (hps : List.Perm s' p.services) (hpn : List.Perm n' p.networks)
    (hpv : List.Perm v' p.volumes) (htf : orderResolverTieFree p) :
    ParseToReactFlow { p with services := s', networks := n', volumes := v' } o =
      ParseToReactFlow p o := by
  obtain ⟨hs, hn, hv⟩ := htf
  have hes : getSortedServices s' p.serviceOrder =
      getSortedServices p.services p.serviceOrder :=
    sortSlice_eq_of_perm (hps.map _) hs
  have hen : getSortedNetworks n' = getSortedNetworks p.networks :=
    sortSlice_eq_of_perm (hpn.map _) hn
  have hev : getSortedVolumes v' p.volumeOrder =
      getSortedVolumes p.volumes p.volumeOrder :=
    sortSlice_eq_of_perm (hpv.map _) hv
  have hls : s'.length = p.services.length := hps.length_eq
  have hln : n'.length = p.networks.length := hpn.length_eq
  have hlv : v'.length = p.volumes.length := hpv.length_eq
  simp only [ParseToReactFlow, initDefaultOptions, calculateGraphDimensions,
    createDockerComposeNode, createNetworkNodes, createServiceNodes,
    createNetworkToServiceEdges, collectVolumeUsage, createVolumeNodes,
    createDependsOnEdges, createServiceToVolumeEdges, calculateViewport,
    buildFinalGraph]
  rw [hes, hen, hev, hls, hln, hlv]

/-! ## C2 (amended) -/

/-- C2 (amended): re-running the layout on identical input and options
yields identical output — the output is invariant under the decoder's
map enumeration order (any permutation of the services/networks/volumes
association lists) whenever the ordering resolver is tie-free on the
project — but edge identifiers are not derived from the stable
(source id, target id, relation kind) pair: dependency and
service→volume edge ids are exactly the consecutive per-call counter
sequences "edge-depends-1…n" and "edge-services-volume-1…n" of the
traversal, and every root fallback edge's id is
"edge-compose-services-k" with k−1 its position in the network/fallback
pass. -/
theorem c2_map_order_determinism_and_counter_ids :
    ∀ (p : ComposeProjectConfig) (o : Option GraphLayoutOptions)
      (s' : List (String × ComposeServiceConfig))
      (n' : List (String × NetworkConfig))
      (v' : List (String × VolumeConfig)),
      List.Perm s' p.services → List.Perm n' p.networks →
      List.Perm v' p.volumes → orderResolverTieFree p →
      ParseToReactFlow { p with services := s', networks := n', volumes := v' } o =
          ParseToReactFlow p o ∧
        c2IdScheme p o := by
  intro p o s' n' v' hps hpn hpv htf
  refine ⟨parseToReactFlow_map_order p o s' n' v' hps hpn hpv htf, ?_, ?_, ?_⟩
  · intro sm
    exact dependsEdgesGo_ids sm (getSortedServices p.services p.serviceOrder) 0
  · intro serviceNodes usage
    exact svcVolEdgesGo_ids serviceNodes usage
      (getSortedServices p.services p.serviceOrder) 0
  · intro i e hg hsrc
    have hm : ∀ kv ∈ (createNetworkNodes p (initDefaultOptions o)
        (calculateGraphDimensions p (initDefaultOptions o))).2,
        kv.2 = "network-" ++ kv.1 := by
      intro kv hkv
      obtain ⟨k, v⟩ := kv
      exact mem_networkNodeMap hkv
    have h := netSvcEdgesGo_fallback_ids hm
      (getSortedServices p.services p.serviceOrder) 0 i e hg hsrc
    rw [h, Nat.zero_add]

/-- C2 witness: services "b", "c" of the dependency project enumerated
in the opposite order still yield the identical graph, and the counter
id scheme holds there. -/
theorem c2_map_order_determinism_and_counter_ids_witness :
    List.Perm [("c", exService), ("b", { exService with dependsOn := ["c"] })]
        projDep1.services ∧
      List.Perm ([] : List (String × NetworkConfig)) projDep1.networks ∧
      List.Perm ([] : List (String × VolumeConfig)) projDep1.volumes ∧
      orderResolverTieFree projDep1 ∧
      (ParseToReactFlow
          { projDep1 with
            services := [("c", exService), ("b", { exService with dependsOn := ["c"] })] }
          none =
        ParseToReactFlow projDep1 none ∧
        c2IdScheme projDep1 none) :=
  ⟨by decide, by decide, by decide,
    by unfold orderResolverTieFree SortDeterministic; decide,
    c2_map_order_determinism_and_counter_ids projDep1 none _ _ _
      (by decide) (by decide) (by decide)
      (by unfold orderResolverTieFree SortDeterministic; decide)⟩
